import Mathlib

/-!
# Verification of the Stremio-to-Trakt converter

A shallow embedding of `stremio_to_trakt.py`: a single-pass HTML scanner
(`StremioHTMLParser`) producing raw media records, followed by a pure
transformation into the Trakt import format, and the `main` pipeline
(empty-input check, filtering, conversion, formatting).

The HTML token stream (the callbacks `handle_starttag`, `handle_data`,
`handle_endtag` fired by Python's `html.parser.HTMLParser`) is modelled as a
list of `HEvent`s; the regular-expression searches of the source are modelled
by executable leftmost-match functions specialised to the concrete patterns
used (for these patterns, Python's backtracking never changes the result of
the greedy scan, as argued at each definition).  Character classes (`\d`,
`\w`, `\s`, `str.lower`, `str.strip`) are modelled at ASCII level.
-/

namespace StremioTrakt

/-- ASCII decimal digit, modelling the regex class `\d` (ASCII level). -/
def isDig (c : Char) : Bool := c.isDigit

/-- Word character, modelling the regex class `\w` (ASCII level). -/
def isWordChar (c : Char) : Bool := c.isAlphanum || c = '_'

/-- Whitespace as matched by the regex class `\s` and stripped by
Python's `str.strip()` (ASCII level): space, tab, LF, CR, VT, FF. -/
def isPySpace (c : Char) : Bool :=
  c = ' ' || c = Char.ofNat 9 || c = Char.ofNat 10 || c = Char.ofNat 13 ||
  c = Char.ofNat 11 || c = Char.ofNat 12

/-- The single-quote character (used by the `background-image` pattern). -/
def squote : Char := Char.ofNat 39

/-- The double-quote character. -/
def dquote : Char := Char.ofNat 34

/-- The term `startsList needle hay`: `needle` is an initial segment of `hay`. -/
def startsList : List Char → List Char → Bool
  | [], _ => true
  | _ :: _, [] => false
  | a :: as, b :: bs => a = b && startsList as bs

/-- The term `infixFrom needle hay`: `needle` occurs somewhere in `hay`. -/
def infixFrom (needle : List Char) : List Char → Bool
  | [] => startsList needle []
  | l@(_ :: t) => startsList needle l || infixFrom needle t

/-- Python's substring test `sub in s`. -/
def hasSubstr (s sub : String) : Bool := infixFrom sub.data s.data

/-- Lower-case one character (ASCII level). -/
def lowerChar (c : Char) : Char :=
  if 'A' ≤ c ∧ c ≤ 'Z' then Char.ofNat (c.toNat + 32) else c

/-- Python's `str.lower()` (ASCII level). -/
def pyLower (s : String) : String := String.mk (s.data.map lowerChar)

/-- Python's `str.strip()` with no argument (ASCII whitespace). -/
def pyStrip (s : String) : String :=
  String.mk (((s.data.dropWhile isPySpace).reverse.dropWhile isPySpace).reverse)

/-- Drop an expected initial segment, or fail. -/
def dropStart : List Char → List Char → Option (List Char)
  | [], l => some l
  | _ :: _, [] => none
  | a :: as, b :: bs => if a = b then dropStart as bs else none

/-- Leftmost-match driver for `re.search`: try the position matcher `f` at
every suffix of the subject, left to right. -/
def searchList (f : List Char → Option α) : List Char → Option α
  | [] => f []
  | l@(_ :: t) =>
    match f l with
    | some r => some r
    | none => searchList f t

/-- Numeric value of a digit string (the effect of Python's `int` on a
`\d+` match). -/
def natOfDigits (l : List Char) : Nat :=
  l.foldl (fun a c => 10 * a + (c.toNat - 48)) 0

/-- Python's `float` applied to a string matched by `[\d.]+`: it succeeds
exactly when the string has at least one digit and at most one dot. -/
def pyFloatDD (l : List Char) : Option Rat :=
  if l.any isDig ∧ l.countP (fun c => c = '.') ≤ 1 then
    let ip := l.takeWhile isDig
    let rest := l.drop ip.length
    let fp := match rest with
      | '.' :: t => t
      | _ => []
    -- integer part `ip`, fraction part `fp`: the value is (ip.fp) as a
    -- decimal, i.e. natOfDigits (ip ++ fp) / 10 ^ |fp|
    some (mkRat (natOfDigits (ip ++ fp)) (10 ^ fp.length))
  else none

/-- Models `urllib.parse.unquote` at the single-byte level: each `%XX`
sequence with two hex digits becomes the character with code `XX`; malformed
sequences are kept verbatim (as in Python). -/
def hexVal (c : Char) : Option Nat :=
  if c.isDigit then some (c.toNat - 48)
  else if 'a' ≤ c ∧ c ≤ 'f' then some (c.toNat - 87)
  else if 'A' ≤ c ∧ c ≤ 'F' then some (c.toNat - 55)
  else none

def pyUnquoteL : List Char → List Char
  | [] => []
  | '%' :: a :: b :: t =>
    match hexVal a, hexVal b with
    | some x, some y => Char.ofNat (16 * x + y) :: pyUnquoteL t
    | _, _ => '%' :: pyUnquoteL (a :: b :: t)
  | c :: t => c :: pyUnquoteL t

def pyUnquote (s : String) : String := String.mk (pyUnquoteL s.data)

/-! ## The concrete regular expressions of the source -/

/-- Tail of `#/detail/(movie|series)/(tt\d+)` after the media type:
`tt` followed by a maximal nonempty digit run (greedy; nothing follows the
group, so no backtracking). Returns (group 1, group 2). -/
def matchTT (mt : String) (l : List Char) : Option (String × String) :=
  match dropStart "tt".data l with
  | some r =>
    let ds := r.takeWhile isDig
    if ds.isEmpty then none else some (mt, "tt" ++ String.mk ds)
  | none => none

/-- Position matcher for `#/detail/(movie|series)/(tt\d+)`. -/
def matchDetailAt (l : List Char) : Option (String × String) :=
  match dropStart "#/detail/".data l with
  | none => none
  | some r =>
    match dropStart "movie/".data r with
    | some r2 => matchTT "movie" r2
    | none =>
      match dropStart "series/".data r with
      | some r2 => matchTT "series" r2
      | none => none

/-- The term `re.search(r'#/detail/(movie|series)/(tt\d+)', href)`. -/
def findDetail (s : String) : Option (String × String) :=
  searchList matchDetailAt s.data

/-- Position matcher for `(tt\d+):(\d+):(\d+)`.  Each `\d+` is a maximal
run: shortening a run leaves a digit where `:` is required, so Python's
backtracking cannot produce a different match at the same position. -/
def matchSSEAt (l : List Char) : Option (String × Nat × Nat) :=
  match dropStart "tt".data l with
  | none => none
  | some r =>
    let d1 := r.takeWhile isDig
    if d1.isEmpty then none else
    match r.drop d1.length with
    | ':' :: r2 =>
      let d2 := r2.takeWhile isDig
      if d2.isEmpty then none else
      match r2.drop d2.length with
      | ':' :: r3 =>
        let d3 := r3.takeWhile isDig
        if d3.isEmpty then none
        else some ("tt" ++ String.mk d1, natOfDigits d2, natOfDigits d3)
      | _ => none
    | _ => none

/-- The term `re.search(r'(tt\d+):(\d+):(\d+)', href)`; returns (id, season, episode). -/
def findSSE (s : String) : Option (String × Nat × Nat) :=
  searchList matchSSEAt s.data

/-- Position matcher for `width:\s*([\d.]+)%`: literal, maximal whitespace,
maximal nonempty `[\d.]` run, then a required `%` (backtracking inside the
runs cannot succeed where the greedy scan fails). Returns group 1. -/
def matchWidthAt (l : List Char) : Option (List Char) :=
  match dropStart "width:".data l with
  | none => none
  | some r =>
    let r1 := r.dropWhile isPySpace
    let num := r1.takeWhile (fun c => isDig c || c = '.')
    if num.isEmpty then none else
    match r1.drop num.length with
    | '%' :: _ => some num
    | _ => none

/-- The term `re.search(r'width:\s*([\d.]+)%', style)`. -/
def findWidth (s : String) : Option (List Char) :=
  searchList matchWidthAt s.data

/-- Character class `[^"\')\s]` of the `background-image` pattern. -/
def isUrlChar (c : Char) : Bool :=
  !(c = dquote || c = squote || c = ')' || isPySpace c)

/-- Position matcher for
`background-image:\s*url\(["\']?([^"\')\s]+)["\']?\)`.
The optional quotes and the maximal run are forced (a quote cannot be part
of the run, and a shortened run leaves a run character where a quote or `)`
is required), so the greedy scan coincides with Python's result. -/
def matchBgAt (l : List Char) : Option (List Char) :=
  match dropStart "background-image:".data l with
  | none => none
  | some r =>
    let r1 := r.dropWhile isPySpace
    match dropStart "url(".data r1 with
    | none => none
    | some r2 =>
      let r3 := match r2 with
        | c :: t => if c = dquote ∨ c = squote then t else r2
        | [] => r2
      let run := r3.takeWhile isUrlChar
      if run.isEmpty then none else
      let rest := r3.drop run.length
      let rest2 := match rest with
        | c :: t => if c = dquote ∨ c = squote then t else rest
        | [] => rest
      match rest2 with
      | ')' :: _ => some run
      | _ => none

/-- The term `re.search(r'background-image:\s*url\(["\']?([^"\')\s]+)["\']?\)', style)`. -/
def findBgUrl (s : String) : Option (List Char) :=
  searchList matchBgAt s.data

/-- Position matcher for `poster-shape-(\w+)`. -/
def matchShapeAt (l : List Char) : Option String :=
  match dropStart "poster-shape-".data l with
  | none => none
  | some r =>
    let run := r.takeWhile isWordChar
    if run.isEmpty then none else some (String.mk run)

/-- The term `re.search(r'poster-shape-(\w+)', classes)`. -/
def findPosterShape (s : String) : Option String :=
  searchList matchShapeAt s.data

/-- Position matcher for `(19|20)\d{2}\b` (the leading `\b` is handled by
the search driver below). -/
def yearAt (l : List Char) : Option Nat :=
  match l with
  | a :: b :: c :: d :: rest =>
    if ((a = '1' ∧ b = '9') ∨ (a = '2' ∧ b = '0')) ∧ isDig c ∧ isDig d ∧
       (match rest with
        | [] => true
        | e :: _ => !isWordChar e) = true then
      some (natOfDigits [a, b, c, d])
    else none
  | _ => none

/-- Search driver for `\b(19|20)\d{2}\b`, tracking the previous character
for the leading word boundary. -/
def searchYearAux : Option Char → List Char → Option Nat
  | prev, [] =>
    match prev with
    | _ => none
  | prev, l@(x :: t) =>
    match (if (match prev with
               | none => true
               | some p => !isWordChar p) = true then yearAt l else none) with
    | some y => some y
    | none => searchYearAux (some x) t

/-- The term `re.search(r'\b(19|20)\d{2}\b', text)`, returning `int(group(0))`. -/
def findYear (s : String) : Option Nat := searchYearAux none s.data

/-! ## Data model

`RawItem` is the scanner's `self.current_item` dict, with Python `None`
rendered as `Option.none`.  The dict's `None`-stripping at finalization
(`handle_endtag`) is modelled by `finalize` below, which views a record as
the ordered key/value list the Python dict comprehension produces. -/

structure RawItem where
  imdb_id : String
  title : String
  type : String
  href : String
  is_watched : Bool
  progress : Rat
  season : Option Nat
  episode : Option Nat
  poster_url : Option String
  poster_shape : Option String
  year : Option Nat
  duration : Option String
  episode_title : Option String
  release_info : Option String
  dataAttrs : List (String × String)
deriving DecidableEq

/-- Python truthiness of an optional string slot (`None` and `''` are falsy). -/
def optStrFalsy : Option String → Bool
  | none => true
  | some x => x = ""

/-- Scanner state: the fields of `StremioHTMLParser`. -/
structure ScanState where
  items : List RawItem
  current : Option RawItem
  in_meta_item : Bool
  capture_text : Bool
  current_text_field : Option String
deriving DecidableEq

def initState : ScanState :=
  { items := [], current := none, in_meta_item := false,
    capture_text := false, current_text_field := none }

/-- One event of the HTML token stream delivered by `HTMLParser.feed`. -/
inductive HEvent where
  | startTag (tag : String) (attrs : List (String × String))
  | dataEv (s : String)
  | endTag (tag : String)
deriving DecidableEq

/-- The term `attrs_dict.get(k, d)` for `attrs_dict = dict(attrs)`: the value of the
last binding of `k` (later duplicates win in a Python dict). -/
def lastVal (k d : String) : List (String × String) → String
  | [] => d
  | (k2, v2) :: t => if k2 = k then lastVal k v2 t else lastVal k d t

def dictGet (attrs : List (String × String)) (k d : String) : String :=
  lastVal k d attrs

/-- The term `k in attrs_dict`. -/
def hasKey (attrs : List (String × String)) (k : String) : Bool :=
  attrs.any (fun kv => kv.1 == k)

/-- The keys of `dict(attrs)` in first-insertion order. -/
def dictKeys (l : List (String × String)) : List String :=
  l.foldl (fun acc kv => if acc.contains kv.1 then acc else acc ++ [kv.1]) []

/-- The term `dict(attrs).items()`: keys in first-occurrence order, last value wins. -/
def dictItems (l : List (String × String)) : List (String × String) :=
  (dictKeys l).map (fun k => (k, lastVal k "" l))

/-- The fresh record built at an entity-root start tag
(`handle_starttag`, `a`-with-`meta-item-container` branch), given the
matched media type (group 1) and IMDB id (group 2). -/
def initItem (attrs : List (String × String)) (mediaType imdbId : String) :
    RawItem :=
  let href := dictGet attrs "href" ""
  let base : RawItem :=
    { imdb_id := imdbId
      title := dictGet attrs "title" ""
      type := if mediaType = "series" then "show" else "movie"
      href := href
      is_watched := false
      progress := 0
      season := none
      episode := none
      poster_url := none
      poster_shape := none
      year := none
      duration := none
      episode_title := none
      release_info := none
      dataAttrs :=
        (dictItems attrs).filter
          (fun kv => startsList "data-".data kv.1.data) }
  match findSSE href with
  | some (_, se, ep) => { base with season := some se, episode := some ep }
  | none => base

/-! ### `handle_starttag`, block by block (in source order) -/

/-- Block "Look for meta item containers". `in_meta_item` is set as soon as
the marker class is seen; `current_item` is replaced only when the
`#/detail/...` pattern parses. -/
def stMeta (tag : String) (attrs : List (String × String)) (s : ScanState) :
    ScanState :=
  if tag = "a" ∧ hasKey attrs "class" then
    if hasSubstr (dictGet attrs "class" "") "meta-item-container" then
      match findDetail (dictGet attrs "href" "") with
      | some (mt, iid) =>
        { s with in_meta_item := true, current := some (initItem attrs mt iid) }
      | none => { s with in_meta_item := true }
    else s
  else s

/-- Block "Check for watched icon". -/
def stWatched (tag : String) (attrs : List (String × String)) (s : ScanState) :
    ScanState :=
  match s.current with
  | some it =>
    if tag = "div" ∧ hasKey attrs "class" ∧
       hasSubstr (dictGet attrs "class" "") "watched-icon-layer" then
      { s with current := some { it with is_watched := true } }
    else s
  | none => s

/-- Block "Check for progress bar".  `float()` on the matched `[\d.]+` group
can raise `ValueError` (e.g. two dots), which aborts the whole run: modelled
by `none`. -/
def stProgress (tag : String) (attrs : List (String × String)) (s : ScanState) :
    Option ScanState :=
  match s.current with
  | some it =>
    if tag = "div" ∧ hasKey attrs "class" ∧
       (hasSubstr (dictGet attrs "class" "") "progress-bar" ∨
        hasSubstr (pyLower (dictGet attrs "class" "")) "progressBar") then
      match findWidth (dictGet attrs "style" "") with
      | some num =>
        match pyFloatDD num with
        | some q => some { s with current := some { it with progress := q } }
        | none => none
      | none => some s
    else some s
  | none => some s

/-- Block "Extract poster image from background-image style".  Note: this
branch assigns `poster_url` unconditionally (no unset check). -/
def stPoster (tag : String) (attrs : List (String × String)) (s : ScanState) :
    ScanState :=
  match s.current with
  | some it =>
    if tag = "div" ∧ hasKey attrs "class" then
      let classes := dictGet attrs "class" ""
      let style := dictGet attrs "style" ""
      if hasSubstr (pyLower classes) "poster" ∨
         hasSubstr (pyLower classes) "thumbnail" ∨
         hasSubstr (pyLower classes) "image" then
        let it1 := match findBgUrl style with
          | some u => { it with poster_url := some (pyUnquote (String.mk u)) }
          | none => it
        let it2 :=
          if hasSubstr classes "poster-shape" then
            match findPosterShape classes with
            | some sh => { it1 with poster_shape := some sh }
            | none => it1
          else it1
        { s with current := some it2 }
      else s
    else s
  | none => s

/-- Block "Extract poster from img tag" (sets `poster_url`/`title` only when
still falsy). -/
def stImg (tag : String) (attrs : List (String × String)) (s : ScanState) :
    ScanState :=
  match s.current with
  | some it =>
    if tag = "img" then
      let src := dictGet attrs "src" ""
      let it1 :=
        if src ≠ "" ∧ optStrFalsy it.poster_url then
          { it with poster_url := some (pyUnquote src) }
        else it
      let alt := dictGet attrs "alt" ""
      let it2 :=
        if alt ≠ "" ∧ it1.title = "" then { it1 with title := alt } else it1
      { s with current := some it2 }
    else s
  | none => s

/-- Tags treated as text-bearing by the capture rules (`div`, `span`, `p`). -/
def textTag (tag : String) : Prop := tag = "div" ∨ tag = "span" ∨ tag = "p"

instance : DecidablePred textTag := fun t => by
  unfold textTag
  infer_instance

/-- Block "Look for title/name labels". -/
def stCapTitle (tag : String) (attrs : List (String × String)) (s : ScanState) :
    ScanState :=
  match s.current with
  | some _ =>
    if textTag tag ∧ hasKey attrs "class" then
      let c := pyLower (dictGet attrs "class" "")
      if hasSubstr c "title" ∨ hasSubstr c "name" ∨ hasSubstr c "label" then
        { s with capture_text := true, current_text_field := some "title_text" }
      else s
    else s
  | none => s

/-- Block "Look for year/release info". -/
def stCapRelease (tag : String) (attrs : List (String × String))
    (s : ScanState) : ScanState :=
  match s.current with
  | some _ =>
    if textTag tag ∧ hasKey attrs "class" then
      let c := pyLower (dictGet attrs "class" "")
      if hasSubstr c "year" ∨ hasSubstr c "release" ∨ hasSubstr c "date" then
        { s with capture_text := true,
                 current_text_field := some "release_info" }
      else s
    else s
  | none => s

/-- Block "Look for duration info". -/
def stCapDuration (tag : String) (attrs : List (String × String))
    (s : ScanState) : ScanState :=
  match s.current with
  | some _ =>
    if textTag tag ∧ hasKey attrs "class" then
      let c := pyLower (dictGet attrs "class" "")
      if hasSubstr c "duration" ∨ hasSubstr c "runtime" ∨ hasSubstr c "time" then
        { s with capture_text := true, current_text_field := some "duration" }
      else s
    else s
  | none => s

/-- Block "Look for episode title". -/
def stCapEp (tag : String) (attrs : List (String × String)) (s : ScanState) :
    ScanState :=
  match s.current with
  | some _ =>
    if textTag tag ∧ hasKey attrs "class" then
      let c := pyLower (dictGet attrs "class" "")
      if hasSubstr c "episode" ∧ hasSubstr c "title" then
        { s with capture_text := true,
                 current_text_field := some "episode_title" }
      else s
    else s
  | none => s

/-- Block "Extract any inline styles ..." (fallback; any tag, only when
`poster_url` is still falsy). -/
def stInline (attrs : List (String × String)) (s : ScanState) : ScanState :=
  match s.current with
  | some it =>
    if hasKey attrs "style" then
      let style := dictGet attrs "style" ""
      if hasSubstr style "background-image" ∧ optStrFalsy it.poster_url then
        match findBgUrl style with
        | some u =>
          { s with current := some { it with poster_url := some (pyUnquote (String.mk u)) } }
        | none => s
      else s
    else s
  | none => s

/-- The term `StremioHTMLParser.handle_starttag`: the blocks above, in source order. -/
def handle_starttag (s : ScanState) (tag : String)
    (attrs : List (String × String)) : Option ScanState :=
  (stProgress tag attrs (stWatched tag attrs (stMeta tag attrs s))).map
    (fun s3 =>
      stInline attrs
        (stCapEp tag attrs
          (stCapDuration tag attrs
            (stCapRelease tag attrs
              (stCapTitle tag attrs
                (stImg tag attrs (stPoster tag attrs s3)))))))

/-- The term `StremioHTMLParser.handle_data`. -/
def handle_data (s : ScanState) (data : String) : ScanState :=
  match s.current with
  | some it =>
    if s.capture_text = true ∧ pyStrip data ≠ "" then
      let text := pyStrip data
      match s.current_text_field with
      | some f =>
        if f = "release_info" then
          let it1 := { it with release_info := some text }
          let it2 := match findYear text with
            | some y => { it1 with year := some y }
            | none => it1
          { s with current := some it2 }
        else if f = "duration" then
          { s with current := some { it with duration := some text } }
        else if f = "episode_title" then
          { s with current := some { it with episode_title := some text } }
        else if f = "title_text" then
          if it.title = "" then { s with current := some { it with title := text } }
          else s
        else s
      | none => s
    else s
  | none => s

/-- The term `StremioHTMLParser.handle_endtag`.  (The `None`-stripping dict
comprehension of the source is modelled by `finalize`, applied when a record
is viewed as a key/value list; the structure appended here carries the same
information.) -/
def handle_endtag (s : ScanState) (tag : String) : ScanState :=
  let s1 :=
    if textTag tag then
      { s with capture_text := false, current_text_field := none }
    else s
  if tag = "a" ∧ s1.in_meta_item = true then
    match s1.current with
    | some it =>
      { s1 with items := s1.items ++ [it], current := none,
                in_meta_item := false }
    | none => { s1 with in_meta_item := false }
  else s1

/-- Dispatch one HTML event to the corresponding handler. -/
def scanStep (s : ScanState) (e : HEvent) : Option ScanState :=
  match e with
  | .startTag t a => handle_starttag s t a
  | .dataEv d => some (handle_data s d)
  | .endTag t => some (handle_endtag s t)

/-- Run the scanner over an event stream. -/
def runScan : ScanState → List HEvent → Option ScanState
  | s, [] => some s
  | s, e :: es =>
    match scanStep s e with
    | some s2 => runScan s2 es
    | none => none

/-- The term `parse_stremio_html`: the items accumulated by a full scan. -/
def runScanner (evs : List HEvent) : Option (List RawItem) :=
  (runScan initState evs).map ScanState.items

/-! ### Finalization as a key/value record -/

/-- A Python dict value as stored in a raw record: a string, a boolean, a
number (int and float collapsed to `Rat`), or `None`. -/
inductive Value where
  | vStr (s : String)
  | vBool (b : Bool)
  | vNum (q : Rat)
  | vNone
deriving DecidableEq

def optNatVal : Option Nat → Value
  | some n => .vNum n
  | none => .vNone

def optStrVal : Option String → Value
  | some s => .vStr s
  | none => .vNone

/-- The dict comprehension
`{k: v for k, v in self.current_item.items() if v is not None}`
applied to a record, in the dict's insertion order. -/
def finalize (it : RawItem) : List (String × Value) :=
  ([("imdb_id", Value.vStr it.imdb_id),
    ("title", Value.vStr it.title),
    ("type", Value.vStr it.type),
    ("href", Value.vStr it.href),
    ("is_watched", Value.vBool it.is_watched),
    ("progress", Value.vNum it.progress),
    ("season", optNatVal it.season),
    ("episode", optNatVal it.episode),
    ("poster_url", optStrVal it.poster_url),
    ("poster_shape", optStrVal it.poster_shape),
    ("year", optNatVal it.year),
    ("duration", optStrVal it.duration),
    ("episode_title", optStrVal it.episode_title),
    ("release_info", optStrVal it.release_info)] ++
   it.dataAttrs.map (fun kv => (kv.1, Value.vStr kv.2))).filter
    (fun kv => !(kv.2 == Value.vNone))

/-- The scanner's output viewed as finalized dict records. -/
def scanRecords (evs : List HEvent) : Option (List (List (String × Value))) :=
  (runScanner evs).map (List.map finalize)

/-! ## Format Transformer

`convert_to_trakt_format` builds a dict per item, each key added at most
once under a condition on the input item alone; it is modelled as a record
whose optional fields are `none` exactly when the corresponding key is not
added.  `datetime.now().isoformat()` is modelled by the parameter `now`
(the code appends a literal `'Z'`). -/

structure TraktItem where
  imdb_id : String
  type : String
  title : Option String := none
  season : Option Nat := none
  episode : Option Nat := none
  watchlisted_at : Option String := none
  watched_at : Option String := none
  href : Option String := none        -- `_href`
  poster_url : Option String := none  -- `_poster_url`
  progress : Option Rat := none       -- `_progress`
  year : Option Nat := none           -- `_year`
  duration : Option String := none    -- `_duration`
  episode_title : Option String := none  -- `_episode_title`
deriving DecidableEq

/-- The loop body of `convert_to_trakt_format` for a single item. -/
def convertOne (now : String) (add_watchlist mark_unknown_dates : Bool)
    (item : RawItem) : TraktItem :=
  -- `is_watched = item.get('is_watched', False) or item.get('progress', 0) > 90`
  let is_watched : Bool := item.is_watched || decide (item.progress > 90)
  { imdb_id := item.imdb_id
    type :=
      if item.season.isSome ∧ item.episode.isSome then "episode" else item.type
    title := if item.title ≠ "" then some item.title else none
    season :=
      if item.season.isSome ∧ item.episode.isSome then item.season else none
    episode :=
      if item.season.isSome ∧ item.episode.isSome then item.episode else none
    watchlisted_at := if add_watchlist then some (now ++ "Z") else none
    watched_at :=
      if is_watched then
        (if mark_unknown_dates then some "unknown" else some (now ++ "Z"))
      else none
    href := if item.href ≠ "" then some item.href else none
    poster_url :=
      match item.poster_url with
      | some u => if u ≠ "" then some u else none
      | none => none
    progress := if item.progress > 0 then some item.progress else none
    year :=
      match item.year with
      | some y => if y ≠ 0 then some y else none
      | none => none
    duration :=
      match item.duration with
      | some d => if d ≠ "" then some d else none
      | none => none
    episode_title :=
      match item.episode_title with
      | some e => if e ≠ "" then some e else none
      | none => none }

/-- The term `convert_to_trakt_format`. -/
def convert_to_trakt_format (items : List RawItem)
    (add_watchlist mark_unknown_dates : Bool) (now : String) :
    List TraktItem :=
  items.map (convertOne now add_watchlist mark_unknown_dates)

/-- One output entry of `format_for_trakt_import`. -/
structure Entry where
  imdb_id : String
  type : String
  title : Option String := none
  watched_at : Option String := none
  watchlisted_at : Option String := none
  season : Option Nat := none
  episode : Option Nat := none
  href : Option String := none
  poster_url : Option String := none
  progress : Option Rat := none
  year : Option Nat := none
  duration : Option String := none
  episode_title : Option String := none
deriving DecidableEq

/-- The loop body of `format_for_trakt_import`.  (The `rating`/`rated_at`
branch is omitted: `convert_to_trakt_format` never produces those keys.) -/
def formatOne (item : TraktItem) : Entry :=
  { imdb_id := item.imdb_id
    type := item.type
    title :=
      match item.title with
      | some t => if t ≠ "" then some t else none
      | none => none
    watched_at := item.watched_at
    watchlisted_at := item.watchlisted_at
    season := if item.type = "episode" then item.season else none
    episode := if item.type = "episode" then item.episode else none
    href := item.href
    poster_url := item.poster_url
    progress := item.progress
    year := item.year
    duration := item.duration
    episode_title := item.episode_title }

/-- The term `format_for_trakt_import`. -/
def format_for_trakt_import (items : List TraktItem) : List Entry :=
  items.map formatOne

/-! ## The `main` pipeline -/

/-- The configuration surface of `main` (CLI flags). -/
structure Config where
  no_watchlist : Bool
  use_current_date : Bool
  watched_only : Bool
  min_progress : Rat
deriving DecidableEq

/-- The fatal outcomes of `main` (`sys.exit(1)` with a diagnostic), plus the
uncaught `ValueError` a malformed progress width would raise. -/
inductive MainErr where
  | emptyInput
  | noItemsFound
  | scanCrash
deriving DecidableEq

/-- The two pre-conversion filters of `main` (lines "Filter by progress if
specified" and "Filter to watched only if specified"). -/
def filteredItems (cfg : Config) (items : List RawItem) : List RawItem :=
  let items1 :=
    if cfg.min_progress > 0 then
      items.filter (fun i => decide (i.progress ≥ cfg.min_progress))
    else items
  if cfg.watched_only then
    items1.filter (fun i => i.is_watched || decide (i.progress > 90))
  else items1

/-- The post-scan tail of `main`: filter, convert, format. -/
def pipelineOutput (cfg : Config) (now : String) (items : List RawItem) :
    List Entry :=
  format_for_trakt_import
    (convert_to_trakt_format (filteredItems cfg items)
      (!cfg.no_watchlist) (!cfg.use_current_date) now)

/-- The term `main`, from the input read onwards.  `toks` is the HTML token stream
`HTMLParser.feed(html_content)` delivers for the document `html`; the
empty-input check inspects only the raw text and happens before the scanner
runs.  A fatal diagnostic + `sys.exit(1)` is an `Except.error`. -/
def mainRun (html : String) (toks : List HEvent) (cfg : Config)
    (now : String) : Except MainErr (List Entry) :=
  if pyStrip html = "" then .error .emptyInput
  else
    match runScanner toks with
    | none => .error .scanCrash
    | some items =>
      if items.isEmpty then .error .noItemsFound
      else .ok (pipelineOutput cfg now items)

/-- The guard of the progress-bar block. -/
def progressCond (tag : String) (attrs : List (String × String)) : Prop :=
  tag = "div" ∧ hasKey attrs "class" ∧
  (hasSubstr (dictGet attrs "class" "") "progress-bar" ∨
   hasSubstr (pyLower (dictGet attrs "class" "")) "progressBar")

instance (t : String) (a : List (String × String)) :
    Decidable (progressCond t a) := by
  unfold progressCond
  infer_instance

/-! ### The text-capture rules and their evaluation order (C8) -/

/-- Guard of the title/name/label capture rule. -/
def capCond1 (attrs : List (String × String)) : Prop :=
  hasSubstr (pyLower (dictGet attrs "class" "")) "title" = true ∨
  hasSubstr (pyLower (dictGet attrs "class" "")) "name" = true ∨
  hasSubstr (pyLower (dictGet attrs "class" "")) "label" = true

/-- Guard of the year/release/date capture rule. -/
def capCond2 (attrs : List (String × String)) : Prop :=
  hasSubstr (pyLower (dictGet attrs "class" "")) "year" = true ∨
  hasSubstr (pyLower (dictGet attrs "class" "")) "release" = true ∨
  hasSubstr (pyLower (dictGet attrs "class" "")) "date" = true

/-- Guard of the duration/runtime/time capture rule. -/
def capCond3 (attrs : List (String × String)) : Prop :=
  hasSubstr (pyLower (dictGet attrs "class" "")) "duration" = true ∨
  hasSubstr (pyLower (dictGet attrs "class" "")) "runtime" = true ∨
  hasSubstr (pyLower (dictGet attrs "class" "")) "time" = true

/-- Guard of the episode-and-title capture rule. -/
def capCond4 (attrs : List (String × String)) : Prop :=
  hasSubstr (pyLower (dictGet attrs "class" "")) "episode" = true ∧
  hasSubstr (pyLower (dictGet attrs "class" "")) "title" = true

instance : DecidablePred capCond1 := fun a => by unfold capCond1; infer_instance

instance : DecidablePred capCond2 := fun a => by unfold capCond2; infer_instance

instance : DecidablePred capCond3 := fun a => by unfold capCond3; infer_instance

instance : DecidablePred capCond4 := fun a => by unfold capCond4; infer_instance

/-- The capture target selected when the four rules are evaluated in source
order (title/name/label, release, duration, episode-title) with the
last-evaluated match determining the final target. -/
def captureRuleTarget (attrs : List (String × String)) : Option String :=
  if capCond4 attrs then some "episode_title"
  else if capCond3 attrs then some "duration"
  else if capCond2 attrs then some "release_info"
  else if capCond1 attrs then some "title_text"
  else none

/-! ## Concrete documents and items used in examples and witnesses -/

/-- A raw record with every optional field empty (progress 0, unwatched). -/
def baseItem : RawItem :=
  { imdb_id := "tt7", title := "", type := "movie", href := "h",
    is_watched := false, progress := 0, season := none, episode := none,
    poster_url := none, poster_shape := none, year := none, duration := none,
    episode_title := none, release_info := none, dataAttrs := [] }

/-- Document with two poster-class `background-image` matches inside one
entity (URL `A` first, then `B`). -/
def docTwoPosters : List HEvent :=
  [ .startTag "a" [("class", "meta-item-container"),
                   ("href", "#/detail/movie/tt1")],
    .startTag "div" [("class", "poster"),
                     ("style", "background-image: url(A)")],
    .startTag "div" [("class", "poster"),
                     ("style", "background-image: url(B)")],
    .endTag "a" ]

/-- Document with a progress bar of width 150%. -/
def docWide : List HEvent :=
  [ .startTag "a" [("class", "meta-item-container"),
                   ("href", "#/detail/movie/tt1")],
    .startTag "div" [("class", "progress-bar"), ("style", "width: 150%")],
    .endTag "a" ]

/-- Document whose link target carries season 0, episode 0. -/
def docZeroSE : List HEvent :=
  [ .startTag "a" [("class", "meta-item-container"),
                   ("href", "#/detail/series/tt123:0:0")],
    .endTag "a" ]

/-- Minimal document: one entity root with no `title` attribute and no
nested markup at all. -/
def docBare : List HEvent :=
  [ .startTag "a" [("class", "meta-item-container"),
                   ("href", "#/detail/movie/tt1")],
    .endTag "a" ]

/-- The finalized record `docBare` produces. -/
def bareRecord : List (String × Value) :=
  [("imdb_id", Value.vStr "tt1"),
   ("title", Value.vStr ""),
   ("type", Value.vStr "movie"),
   ("href", Value.vStr "#/detail/movie/tt1"),
   ("is_watched", Value.vBool false),
   ("progress", Value.vNum 0)]

/-- A sample configuration with `minimumProgress = 50`. -/
def cfg50 : Config :=
  { no_watchlist := false, use_current_date := false, watched_only := false,
    min_progress := 50 }

/-- A sample configuration with `watchedOnly` set. -/
def cfgWatched : Config :=
  { no_watchlist := false, use_current_date := false, watched_only := true,
    min_progress := 0 }

/-- An episode raw record (season 2, episode 5). -/
def epItem : RawItem := { baseItem with season := some 2, episode := some 5 }

/-- A state with one open entity (used by several witnesses). -/
def openState : ScanState :=
  { items := [], current := some baseItem, in_meta_item := true,
    capture_text := false, current_text_field := none }

/-- The class list `episode-title` matches both the title rule and the
episode-title rule; the scanner must arm `episode_title`. -/
def epTitleAttrs : List (String × String) := [("class", "episode-title")]

/-- The state `handle_starttag` produces for `epTitleAttrs` on `openState`. -/
def epTitleResult : ScanState :=
  { openState with capture_text := true,
                   current_text_field := some "episode_title" }

/-- Witness for `entity_reentry_discards` at a concrete reentrant root. -/
def reAttrs : List (String × String) :=
  [("class", "meta-item-container"), ("href", "#/detail/movie/tt2")]

/-! ## Poster-URL branch semantics (C3, amended) -/

/-- Guard of the poster/thumbnail/image class branch. -/
def posterCond (attrs : List (String × String)) : Prop :=
  hasSubstr (pyLower (dictGet attrs "class" "")) "poster" = true ∨
  hasSubstr (pyLower (dictGet attrs "class" "")) "thumbnail" = true ∨
  hasSubstr (pyLower (dictGet attrs "class" "")) "image" = true

instance : DecidablePred posterCond := fun a => by
  unfold posterCond
  infer_instance

/-! ## Run-level invariants of the scanner (C4, C6 amended) -/

/-- The record fields only `stMeta` (fresh record) and `stProgress` (width
parse) can change: progress, season, episode. -/
def coreOf (it : RawItem) : Rat × Option Nat × Option Nat :=
  (it.progress, it.season, it.episode)

/-- A predicate holding of every produced record and of the open one. -/
def ScanInv (Q : RawItem → Prop) (s : ScanState) : Prop :=
  (∀ it ∈ s.items, Q it) ∧ (∀ it, s.current = some it → Q it)

/-- A two-predicate scan invariant: `R` holds of every produced record and
`Q` of the open one (finalizing moves the open record into the items, so
preservation needs `Q → R`).  Used to reason about a stretch of the token
stream relative to the items already produced when it starts. -/
def ScanInvPair (R Q : RawItem → Prop) (s : ScanState) : Prop :=
  (∀ it ∈ s.items, R it) ∧ (∀ it, s.current = some it → Q it)

/-- The root-tag attributes of the `docBare` entity. -/
def dbAttrs : List (String × String) :=
  [("class", "meta-item-container"), ("href", "#/detail/movie/tt1")]

/-- The scanner state immediately after the `docBare` entity's root start
tag: the freshly created record is open, nothing produced yet. -/
def spanState : ScanState :=
  { items := [], current := some (initItem dbAttrs "movie" "tt1"),
    in_meta_item := true, capture_text := false, current_text_field := none }

/-- The remainder of that entity's span: a watched marker (no progress-bar
markup) and the finalizing end tag. -/
def spanMid : List HEvent :=
  [.startTag "div" [("class", "watched-icon-layer")], .endTag "a"]

/-- The record produced at the end of that span. -/
def spanItem : RawItem :=
  { initItem dbAttrs "movie" "tt1" with is_watched := true }

/-- The scanner state at the end of that span. -/
def spanEnd : ScanState :=
  { items := [spanItem], current := none, in_meta_item := false,
    capture_text := false, current_text_field := none }

/-- Witness for `posterUrl_branch_semantics`: an open entity whose poster
URL is already `A`. -/
def posterItemA : RawItem := { baseItem with poster_url := some "A" }

def poState : ScanState :=
  { items := [], current := some posterItemA, in_meta_item := true,
    capture_text := false, current_text_field := none }

def pAttrs : List (String × String) :=
  [("class", "poster"), ("style", "background-image: url(B)")]

/-- The state `handle_starttag` produces for `pAttrs` on `poState`. -/
def pResult : ScanState :=
  { poState with current := some { posterItemA with poster_url := some "B" } }

/-! ## Theorems -/

/-! ## Block-level lemmas about `handle_starttag`

Each handler block is a no-op unless its tag/attribute guard fires, and
otherwise performs a specific, local update.  These characterizations drive
every run-level proof below. -/

theorem stMeta_not_a {tag : String} (attrs : List (String × String))
    (s : ScanState) (h : tag ≠ "a") : stMeta tag attrs s = s := by
  simp [stMeta, h]

theorem stWatched_not_div {tag : String} (attrs : List (String × String))
    (s : ScanState) (h : tag ≠ "div") : stWatched tag attrs s = s := by
  unfold stWatched
  cases s.current <;> simp [h]

theorem stProgress_not_div {tag : String} (attrs : List (String × String))
    (s : ScanState) (h : tag ≠ "div") : stProgress tag attrs s = some s := by
  unfold stProgress
  cases s.current <;> simp [h]

theorem stPoster_not_div {tag : String} (attrs : List (String × String))
    (s : ScanState) (h : tag ≠ "div") : stPoster tag attrs s = s := by
  unfold stPoster
  cases s.current <;> simp [h]

theorem stImg_not_img {tag : String} (attrs : List (String × String))
    (s : ScanState) (h : tag ≠ "img") : stImg tag attrs s = s := by
  unfold stImg
  cases s.current <;> simp [h]

theorem stCapTitle_not_text {tag : String} (attrs : List (String × String))
    (s : ScanState) (h : ¬ textTag tag) : stCapTitle tag attrs s = s := by
  unfold stCapTitle
  cases s.current <;> simp [h]

theorem stCapRelease_not_text {tag : String} (attrs : List (String × String))
    (s : ScanState) (h : ¬ textTag tag) : stCapRelease tag attrs s = s := by
  unfold stCapRelease
  cases s.current <;> simp [h]

theorem stCapDuration_not_text {tag : String} (attrs : List (String × String))
    (s : ScanState) (h : ¬ textTag tag) : stCapDuration tag attrs s = s := by
  unfold stCapDuration
  cases s.current <;> simp [h]

theorem stCapEp_not_text {tag : String} (attrs : List (String × String))
    (s : ScanState) (h : ¬ textTag tag) : stCapEp tag attrs s = s := by
  unfold stCapEp
  cases s.current <;> simp [h]

theorem stInline_no_style (attrs : List (String × String)) (s : ScanState)
    (h : hasKey attrs "style" = false) : stInline attrs s = s := by
  unfold stInline
  cases s.current <;> simp [h]

/-- The term `stMeta` either leaves the state alone, only sets the in-meta flag, or
additionally replaces the current record by a freshly initialized one. -/
theorem stMeta_char (tag : String) (attrs : List (String × String))
    (s : ScanState) :
    stMeta tag attrs s = s ∨
    stMeta tag attrs s = { s with in_meta_item := true } ∨
    ∃ mt iid, findDetail (dictGet attrs "href" "") = some (mt, iid) ∧
      stMeta tag attrs s =
        { s with in_meta_item := true, current := some (initItem attrs mt iid) } := by
  unfold stMeta
  split
  · split
    · split
      · rename_i mt iid heq
        exact Or.inr (Or.inr ⟨mt, iid, heq, rfl⟩)
      · exact Or.inr (Or.inl rfl)
    · exact Or.inl rfl
  · exact Or.inl rfl

/-- The term `stWatched` at most sets the watched flag of the current record. -/
theorem stWatched_char (tag : String) (attrs : List (String × String))
    (s : ScanState) :
    stWatched tag attrs s = s ∨
    ∃ it, s.current = some it ∧
      stWatched tag attrs s = { s with current := some { it with is_watched := true } } := by
  cases hc : s.current with
  | none => simp [stWatched, hc]
  | some it =>
    simp only [stWatched, hc]
    split
    · exact Or.inr ⟨it, rfl, rfl⟩
    · exact Or.inl rfl

/-- The term `stProgress`, when it does not abort, either leaves the state alone or
(under its guard) replaces the current record's progress by a value parsed
from the width style. -/
theorem stProgress_char (tag : String) (attrs : List (String × String))
    (s s' : ScanState) (h : stProgress tag attrs s = some s') :
    s' = s ∨
    (progressCond tag attrs ∧
      ∃ it num q, s.current = some it ∧
        findWidth (dictGet attrs "style" "") = some num ∧
        pyFloatDD num = some q ∧
        s' = { s with current := some { it with progress := q } }) := by
  cases hc : s.current with
  | none =>
    simp only [stProgress, hc, Option.some.injEq] at h
    exact Or.inl h.symm
  | some it =>
    simp only [stProgress, hc] at h
    split at h
    · rename_i hcond
      split at h
      · rename_i num hnum
        split at h
        · rename_i q hq
          rw [Option.some.injEq] at h
          exact Or.inr ⟨hcond, it, num, q, rfl, hnum, hq, h.symm⟩
        · exact absurd h (by simp)
      · rw [Option.some.injEq] at h
        exact Or.inl h.symm
    · rw [Option.some.injEq] at h
      exact Or.inl h.symm

/-- If its guard fails, `stProgress` is the identity. -/
theorem stProgress_noop (tag : String) (attrs : List (String × String))
    (s : ScanState) (h : ¬ progressCond tag attrs) :
    stProgress tag attrs s = some s := by
  cases hc : s.current with
  | none => simp [stProgress, hc]
  | some it =>
    simp only [stProgress, hc]
    split
    · rename_i hcond
      exact absurd hcond h
    · rfl

/-- The term `stPoster` at most rewrites the poster fields of the current record. -/
theorem stPoster_char (tag : String) (attrs : List (String × String))
    (s : ScanState) :
    stPoster tag attrs s = s ∨
    ∃ it pu ps, s.current = some it ∧
      stPoster tag attrs s =
        { s with current := some { it with poster_url := pu, poster_shape := ps } } := by
  cases hc : s.current with
  | none => simp [stPoster, hc]
  | some it =>
    simp only [stPoster, hc]
    repeat' split
    all_goals
      first
      | exact Or.inl rfl
      | exact Or.inl (by rw [← hc])
      | exact Or.inr ⟨it, _, _, rfl, rfl⟩

/-- The term `stImg` at most rewrites poster URL and title of the current record. -/
theorem stImg_char (tag : String) (attrs : List (String × String))
    (s : ScanState) :
    stImg tag attrs s = s ∨
    ∃ it pu ttl, s.current = some it ∧
      stImg tag attrs s =
        { s with current := some { it with poster_url := pu, title := ttl } } := by
  cases hc : s.current with
  | none => simp [stImg, hc]
  | some it =>
    simp only [stImg, hc]
    repeat' split
    all_goals
      first
      | exact Or.inl rfl
      | exact Or.inl (by rw [← hc])
      | exact Or.inr ⟨it, _, _, rfl, rfl⟩

theorem stCapTitle_char (tag : String) (attrs : List (String × String))
    (s : ScanState) :
    stCapTitle tag attrs s = s ∨
    stCapTitle tag attrs s =
      { s with capture_text := true, current_text_field := some "title_text" } := by
  cases hc : s.current with
  | none => simp [stCapTitle, hc]
  | some it =>
    simp only [stCapTitle, hc]
    split
    · split
      · exact Or.inr rfl
      · exact Or.inl rfl
    · exact Or.inl rfl

theorem stCapRelease_char (tag : String) (attrs : List (String × String))
    (s : ScanState) :
    stCapRelease tag attrs s = s ∨
    stCapRelease tag attrs s =
      { s with capture_text := true, current_text_field := some "release_info" } := by
  cases hc : s.current with
  | none => simp [stCapRelease, hc]
  | some it =>
    simp only [stCapRelease, hc]
    split
    · split
      · exact Or.inr rfl
      · exact Or.inl rfl
    · exact Or.inl rfl

theorem stCapDuration_char (tag : String) (attrs : List (String × String))
    (s : ScanState) :
    stCapDuration tag attrs s = s ∨
    stCapDuration tag attrs s =
      { s with capture_text := true, current_text_field := some "duration" } := by
  cases hc : s.current with
  | none => simp [stCapDuration, hc]
  | some it =>
    simp only [stCapDuration, hc]
    split
    · split
      · exact Or.inr rfl
      · exact Or.inl rfl
    · exact Or.inl rfl

theorem stCapEp_char (tag : String) (attrs : List (String × String))
    (s : ScanState) :
    stCapEp tag attrs s = s ∨
    stCapEp tag attrs s =
      { s with capture_text := true, current_text_field := some "episode_title" } := by
  cases hc : s.current with
  | none => simp [stCapEp, hc]
  | some it =>
    simp only [stCapEp, hc]
    split
    · split
      · exact Or.inr rfl
      · exact Or.inl rfl
    · exact Or.inl rfl

/-- The term `stInline` at most sets the poster URL of the current record. -/
theorem stInline_char (attrs : List (String × String)) (s : ScanState) :
    stInline attrs s = s ∨
    ∃ it u, s.current = some it ∧
      stInline attrs s =
        { s with current := some { it with poster_url := some (pyUnquote (String.mk u)) } } := by
  cases hc : s.current with
  | none => simp [stInline, hc]
  | some it =>
    simp only [stInline, hc]
    repeat' split
    all_goals
      first
      | exact Or.inl rfl
      | exact Or.inl (by rw [← hc])
      | exact Or.inr ⟨it, _, rfl, rfl⟩

/-- The term `handle_data` at most rewrites the text-derived fields of the current
record (title, year, duration, episode title, release info). -/
theorem handle_data_char (s : ScanState) (d : String) :
    handle_data s d = s ∨
    ∃ it ttl yr dur ept rel, s.current = some it ∧
      handle_data s d =
        { s with current := some { it with title := ttl, year := yr, duration := dur, episode_title := ept, release_info := rel } } := by
  cases hc : s.current with
  | none => simp [handle_data, hc]
  | some it =>
    simp only [handle_data, hc]
    repeat' split
    all_goals
      first
      | exact Or.inl rfl
      | exact Or.inl (by rw [← hc])
      | exact Or.inr ⟨it, _, _, _, _, _, rfl, rfl⟩

/-- The term `handle_endtag` leaves the item list alone or appends exactly the
current record; the resulting current record is the old one or `none`. -/
theorem handle_endtag_char (s : ScanState) (tag : String) :
    ((handle_endtag s tag).items = s.items ∨
      ∃ it, s.current = some it ∧
        (handle_endtag s tag).items = s.items ++ [it]) ∧
    ((handle_endtag s tag).current = s.current ∨
      (handle_endtag s tag).current = none) := by
  unfold handle_endtag
  split <;> dsimp only <;>
    [skip; skip] <;>
  · split
    · split
      · exact ⟨Or.inr ⟨_, by assumption, rfl⟩, Or.inr rfl⟩
      · exact ⟨Or.inl rfl, Or.inl rfl⟩
    · exact ⟨Or.inl rfl, Or.inl rfl⟩

/-! ### Preservation of the text-capture state by the non-capture blocks -/

theorem stWatched_pres (tag : String) (attrs : List (String × String))
    (s : ScanState) :
    (stWatched tag attrs s).capture_text = s.capture_text ∧
    (stWatched tag attrs s).current_text_field = s.current_text_field ∧
    (stWatched tag attrs s).current.isSome = s.current.isSome := by
  rcases stWatched_char tag attrs s with h | ⟨it, hit, h⟩ <;> rw [h] <;>
    simp [*]

theorem stPoster_pres (tag : String) (attrs : List (String × String))
    (s : ScanState) :
    (stPoster tag attrs s).capture_text = s.capture_text ∧
    (stPoster tag attrs s).current_text_field = s.current_text_field ∧
    (stPoster tag attrs s).current.isSome = s.current.isSome := by
  rcases stPoster_char tag attrs s with h | ⟨it, pu, ps, hit, h⟩ <;> rw [h] <;>
    simp [*]

theorem stImg_pres (tag : String) (attrs : List (String × String))
    (s : ScanState) :
    (stImg tag attrs s).capture_text = s.capture_text ∧
    (stImg tag attrs s).current_text_field = s.current_text_field ∧
    (stImg tag attrs s).current.isSome = s.current.isSome := by
  rcases stImg_char tag attrs s with h | ⟨it, pu, ttl, hit, h⟩ <;> rw [h] <;>
    simp [*]

theorem stInline_pres (attrs : List (String × String)) (s : ScanState) :
    (stInline attrs s).capture_text = s.capture_text ∧
    (stInline attrs s).current_text_field = s.current_text_field ∧
    (stInline attrs s).current.isSome = s.current.isSome := by
  rcases stInline_char attrs s with h | ⟨it, u, hit, h⟩ <;> rw [h] <;>
    simp [*]

theorem stProgress_pres (tag : String) (attrs : List (String × String))
    (s s' : ScanState) (h : stProgress tag attrs s = some s') :
    s'.capture_text = s.capture_text ∧
    s'.current_text_field = s.current_text_field ∧
    s'.current.isSome = s.current.isSome := by
  rcases stProgress_char tag attrs s s' h with h2 | ⟨_, it, num, q, hit, _, _, h2⟩ <;>
    rw [h2] <;> simp [*]

theorem stCapTitle_pos (tag : String) (attrs : List (String × String))
    (s : ScanState) (hs : s.current.isSome = true) (ht : textTag tag)
    (hk : hasKey attrs "class" = true) (hc : capCond1 attrs) :
    stCapTitle tag attrs s =
      { s with capture_text := true, current_text_field := some "title_text" } := by
  obtain ⟨it, hit⟩ := Option.isSome_iff_exists.mp hs
  simp only [stCapTitle, hit]
  rw [if_pos ⟨ht, hk⟩]
  exact if_pos hc

theorem stCapTitle_neg (tag : String) (attrs : List (String × String))
    (s : ScanState) (hc : ¬ capCond1 attrs) : stCapTitle tag attrs s = s := by
  cases hit : s.current with
  | none => simp [stCapTitle, hit]
  | some it =>
    simp only [stCapTitle, hit]
    split
    · exact if_neg hc
    · rfl

theorem stCapRelease_pos (tag : String) (attrs : List (String × String))
    (s : ScanState) (hs : s.current.isSome = true) (ht : textTag tag)
    (hk : hasKey attrs "class" = true) (hc : capCond2 attrs) :
    stCapRelease tag attrs s =
      { s with capture_text := true, current_text_field := some "release_info" } := by
  obtain ⟨it, hit⟩ := Option.isSome_iff_exists.mp hs
  simp only [stCapRelease, hit]
  rw [if_pos ⟨ht, hk⟩]
  exact if_pos hc

theorem stCapRelease_neg (tag : String) (attrs : List (String × String))
    (s : ScanState) (hc : ¬ capCond2 attrs) : stCapRelease tag attrs s = s := by
  cases hit : s.current with
  | none => simp [stCapRelease, hit]
  | some it =>
    simp only [stCapRelease, hit]
    split
    · exact if_neg hc
    · rfl

theorem stCapDuration_pos (tag : String) (attrs : List (String × String))
    (s : ScanState) (hs : s.current.isSome = true) (ht : textTag tag)
    (hk : hasKey attrs "class" = true) (hc : capCond3 attrs) :
    stCapDuration tag attrs s =
      { s with capture_text := true, current_text_field := some "duration" } := by
  obtain ⟨it, hit⟩ := Option.isSome_iff_exists.mp hs
  simp only [stCapDuration, hit]
  rw [if_pos ⟨ht, hk⟩]
  exact if_pos hc

theorem stCapDuration_neg (tag : String) (attrs : List (String × String))
    (s : ScanState) (hc : ¬ capCond3 attrs) : stCapDuration tag attrs s = s := by
  cases hit : s.current with
  | none => simp [stCapDuration, hit]
  | some it =>
    simp only [stCapDuration, hit]
    split
    · exact if_neg hc
    · rfl

theorem stCapEp_pos (tag : String) (attrs : List (String × String))
    (s : ScanState) (hs : s.current.isSome = true) (ht : textTag tag)
    (hk : hasKey attrs "class" = true) (hc : capCond4 attrs) :
    stCapEp tag attrs s =
      { s with capture_text := true, current_text_field := some "episode_title" } := by
  obtain ⟨it, hit⟩ := Option.isSome_iff_exists.mp hs
  simp only [stCapEp, hit]
  rw [if_pos ⟨ht, hk⟩]
  exact if_pos hc

theorem stCapEp_neg (tag : String) (attrs : List (String × String))
    (s : ScanState) (hc : ¬ capCond4 attrs) : stCapEp tag attrs s = s := by
  cases hit : s.current with
  | none => simp [stCapEp, hit]
  | some it =>
    simp only [stCapEp, hit]
    split
    · exact if_neg hc
    · rfl

/-- The four capture blocks in sequence: the final capture state is
described by `captureRuleTarget`, and the current record is untouched. -/
theorem capChain_fields (tag : String) (attrs : List (String × String))
    (s4 : ScanState) (h4 : s4.current.isSome = true) (ht : textTag tag)
    (hk : hasKey attrs "class" = true) :
    (stCapEp tag attrs (stCapDuration tag attrs
        (stCapRelease tag attrs (stCapTitle tag attrs s4)))).current_text_field =
      (match captureRuleTarget attrs with
       | some f => some f
       | none => s4.current_text_field) ∧
    (stCapEp tag attrs (stCapDuration tag attrs
        (stCapRelease tag attrs (stCapTitle tag attrs s4)))).capture_text =
      ((captureRuleTarget attrs).isSome || s4.capture_text) ∧
    (stCapEp tag attrs (stCapDuration tag attrs
        (stCapRelease tag attrs (stCapTitle tag attrs s4)))).current = s4.current := by
  by_cases h1 : capCond1 attrs <;> by_cases h2 : capCond2 attrs <;>
    by_cases h3 : capCond3 attrs <;> by_cases h4c : capCond4 attrs <;>
  · first
    | rw [stCapTitle_pos tag attrs s4 h4 ht hk h1]
    | rw [stCapTitle_neg tag attrs s4 h1]
    first
    | rw [stCapRelease_pos tag attrs _ (by simp [h4]) ht hk h2]
    | rw [stCapRelease_neg tag attrs _ h2]
    first
    | rw [stCapDuration_pos tag attrs _ (by simp [h4]) ht hk h3]
    | rw [stCapDuration_neg tag attrs _ h3]
    first
    | rw [stCapEp_pos tag attrs _ (by simp [h4]) ht hk h4c]
    | rw [stCapEp_neg tag attrs _ h4c]
    simp [captureRuleTarget, h1, h2, h3, h4c]

/-- The four capture blocks never change the current record. -/
theorem stCapTitle_current (tag : String) (attrs : List (String × String))
    (s : ScanState) : (stCapTitle tag attrs s).current = s.current := by
  rcases stCapTitle_char tag attrs s with h | h <;> rw [h]

theorem stCapRelease_current (tag : String) (attrs : List (String × String))
    (s : ScanState) : (stCapRelease tag attrs s).current = s.current := by
  rcases stCapRelease_char tag attrs s with h | h <;> rw [h]

theorem stCapDuration_current (tag : String) (attrs : List (String × String))
    (s : ScanState) : (stCapDuration tag attrs s).current = s.current := by
  rcases stCapDuration_char tag attrs s with h | h <;> rw [h]

theorem stCapEp_current (tag : String) (attrs : List (String × String))
    (s : ScanState) : (stCapEp tag attrs s).current = s.current := by
  rcases stCapEp_char tag attrs s with h | h <;> rw [h]

/-! ## Claims about the Format Transformer -/

/-- Claim C1. For every raw entity and transformer configuration, watched
status is `is_watched OR progress > 90`; if watched and
`mark_unknown_dates` holds, `watched_at` is the literal `"unknown"`; if
watched and it does not hold, `watched_at` is the current timestamp (the
`now` parameter models `datetime.now().isoformat()`) with the trailing UTC
marker `"Z"`; if not watched, the `watched_at` key is absent (`none`). -/
theorem convert_watchedAt_spec (now : String) (aw mu : Bool)
    (item : RawItem) :
    (convertOne now aw mu item).watched_at =
      (if item.is_watched = true ∨ item.progress > 90 then
        (if mu = true then some "unknown" else some (now ++ "Z"))
      else none) := by
  simp only [convertOne]
  by_cases h : item.is_watched = true ∨ item.progress > 90
  · rw [if_pos h, if_pos]
    simpa using h
  · rw [if_neg h, if_neg]
    simpa using h

/-- Claim C2. The transformer assigns output kind `"episode"` exactly when
both `season` and `episode` are present on the raw entity (whose own kind
is `movie` or `show`); otherwise the output kind is the entity's original
kind. -/
theorem convert_kind_episode_iff (now : String) (aw mu : Bool)
    (item : RawItem) (h : item.type = "movie" ∨ item.type = "show") :
    ((convertOne now aw mu item).type = "episode" ↔
      (item.season.isSome ∧ item.episode.isSome)) ∧
    (¬(item.season.isSome ∧ item.episode.isSome) →
      (convertOne now aw mu item).type = item.type) := by
  simp only [convertOne]
  by_cases hc : item.season.isSome ∧ item.episode.isSome
  · rw [if_pos (by simpa using hc)]
    exact ⟨by simpa using hc, fun hn => absurd hc hn⟩
  · rw [if_neg (by simpa using hc)]
    refine ⟨⟨fun he => ?_, fun hb => absurd hb hc⟩, fun _ => rfl⟩
    rcases h with h | h <;> rw [h] at he <;> exact absurd he (by decide)

/-- Witness for `convert_kind_episode_iff` at a concrete episode item. -/
theorem convert_kind_episode_iff_witness :
    ((convertOne "T" true true epItem).type = "episode" ↔
      (epItem.season.isSome ∧ epItem.episode.isSome)) ∧
    (¬(epItem.season.isSome ∧ epItem.episode.isSome) →
      (convertOne "T" true true epItem).type = epItem.type) :=
  convert_kind_episode_iff "T" true true epItem (Or.inl rfl)

/-! ## Claims about the pipeline (`main`) -/

/-- Helper: an item surviving the filters did meet the progress bound. -/
theorem filteredItems_progress {cfg : Config} {items : List RawItem}
    {i : RawItem} (hi : i ∈ filteredItems cfg items)
    (h0 : cfg.min_progress > 0) : cfg.min_progress ≤ i.progress := by
  simp only [filteredItems, if_pos h0] at hi
  by_cases hw : cfg.watched_only = true
  · rw [if_pos hw] at hi
    have := (List.mem_filter.mp (List.mem_filter.mp hi).1).2
    simpa using this
  · rw [if_neg hw] at hi
    have := (List.mem_filter.mp hi).2
    simpa using this

/-- Helper: with `watchedOnly`, a surviving item is watched or above 90. -/
theorem filteredItems_watched {cfg : Config} {items : List RawItem}
    {i : RawItem} (hi : i ∈ filteredItems cfg items)
    (hw : cfg.watched_only = true) :
    i.is_watched = true ∨ i.progress > 90 := by
  simp only [filteredItems, if_pos hw] at hi
  have := (List.mem_filter.mp hi).2
  simpa using this

/-- Claim C5. Filtering is applied before conversion and removes entities
entirely: the final output is the image of the filtered item list under
(convert; format), so a removed item contributes no entry at all.  With
`minimumProgress = 50` no surviving item has progress 30, and with
`watchedOnly` every surviving item is watched or has progress above 90. -/
theorem filtering_before_conversion (cfg : Config) (now : String)
    (items : List RawItem) :
    pipelineOutput cfg now items =
      (filteredItems cfg items).map
        (fun i =>
          formatOne (convertOne now (!cfg.no_watchlist)
            (!cfg.use_current_date) i)) ∧
    (cfg.min_progress = 50 →
      ∀ i ∈ filteredItems cfg items, i.progress ≠ 30) ∧
    (cfg.watched_only = true →
      ∀ i ∈ filteredItems cfg items,
        i.is_watched = true ∨ i.progress > 90) := by
  refine ⟨?_, ?_, ?_⟩
  · simp [pipelineOutput, format_for_trakt_import, convert_to_trakt_format,
      List.map_map]
  · intro h50 i hi
    have := filteredItems_progress hi (by rw [h50]; norm_num)
    rw [h50] at this
    intro h30
    rw [h30] at this
    norm_num at this
  · exact fun hw i hi => filteredItems_watched hi hw

/-- Witness for `filtering_before_conversion`: with `minimumProgress = 50`,
an item of progress 30 survives neither filter. -/
theorem filtering_before_conversion_witness :
    ∀ i ∈ filteredItems cfg50 [{ baseItem with progress := 30 }],
      i.progress ≠ 30 :=
  (filtering_before_conversion cfg50 "T"
    [{ baseItem with progress := 30 }]).2.1 rfl

/-- Claim C9. An empty or whitespace-only input document makes the run fail
with the `EmptyInput` error (before the scanner or any output is reached:
the check is the first step of `mainRun`); a non-empty input never produces
that failure. -/
theorem empty_input_failure (html : String) (toks : List HEvent)
    (cfg : Config) (now : String) :
    (pyStrip html = "" →
      mainRun html toks cfg now = .error .emptyInput) ∧
    (pyStrip html ≠ "" →
      mainRun html toks cfg now ≠ .error .emptyInput) := by
  constructor
  · intro h
    simp [mainRun, h]
  · intro h
    unfold mainRun
    rw [if_neg h]
    cases hs : runScanner toks with
    | none => simp
    | some items =>
      by_cases he : items.isEmpty
      · simp [he]
      · simp [he]

/-- Witness for `empty_input_failure` at concrete inputs. -/
theorem empty_input_failure_witness :
    mainRun "  " [] cfg50 "T" = .error .emptyInput ∧
    mainRun "x" [] cfg50 "T" ≠ .error .emptyInput :=
  ⟨(empty_input_failure "  " [] cfg50 "T").1 (by decide),
   (empty_input_failure "x" [] cfg50 "T").2 (by decide)⟩

/-! ## Counterexamples found in the Markup Scanner -/

/-- Claim C3, counterexample. Two poster-class `background-image` matches in
one entity: the claim says the first URL (`A`) wins and later matches do
not overwrite, but the scanner stores the second URL (`B`) — the
poster-class branch assigns unconditionally. -/
theorem posterUrl_overwrite_counterexample :
    (runScanner docTwoPosters).map (List.map RawItem.poster_url) =
      some [some "B"] ∧ some "B" ≠ some "A" := by
  constructor
  · decide
  · decide

/-- Claim C4, counterexample. A progress bar declared `width: 150%` yields
`progressPercent = 150`, outside the claimed interval `[0, 100]`. -/
theorem progress_out_of_range_counterexample :
    (runScanner docWide).map (List.map RawItem.progress) = some [150] ∧
    ¬((150 : Rat) ≤ 100) := by
  constructor
  · decide
  · norm_num

/-- Claim C6, counterexample. A link target `tt123:0:0` produces
`season = 0` and `episode = 0`: present, but not strictly positive. -/
theorem season_zero_counterexample :
    (runScanner docZeroSE).map
        (List.map (fun it => (it.season, it.episode))) =
      some [(some 0, some 0)] ∧ ¬((0 : Nat) > 0) := by
  constructor
  · rfl
  · decide

/-- Claim C7, counterexample. An entity root with no `title` attribute and no
discovered title is finalized with the placeholder `title = ""` present in
the record (only `None`-valued fields are stripped, and the title slot is
initialized to the empty string, not `None`). -/
theorem placeholder_title_counterexample :
    scanRecords docBare = some [bareRecord] ∧
    ("title", Value.vStr "") ∈ bareRecord := by
  constructor
  · decide
  · decide

/-! ## Capture-rule order (C8) and entity-root reentry (C10) -/

/-- Claim C8. For a text-bearing start tag (`div`/`span`/`p`) with a class
attribute, processed while an entity is open, the four text-capture rules
are evaluated in source order (title/name/label, then year/release/date,
then duration/runtime/time, then episode-and-title) and the LAST matching
rule determines the capture target (`captureRuleTarget` encodes exactly
that priority); when no rule matches, the capture state is unchanged. -/
theorem capture_rule_order (s : ScanState) (tag : String)
    (attrs : List (String × String)) (s' : ScanState) (it : RawItem)
    (hit : s.current = some it) (htag : textTag tag)
    (hkey : hasKey attrs "class" = true)
    (hrun : handle_starttag s tag attrs = some s') :
    s'.current_text_field =
      (match captureRuleTarget attrs with
       | some f => some f
       | none => s.current_text_field) ∧
    s'.capture_text = ((captureRuleTarget attrs).isSome || s.capture_text) := by
  have hna : tag ≠ "a" := by
    rcases htag with h | h | h <;> subst h <;> decide
  have hni : tag ≠ "img" := by
    rcases htag with h | h | h <;> subst h <;> decide
  unfold handle_starttag at hrun
  rw [stMeta_not_a attrs s hna] at hrun
  obtain ⟨s3, hs3, hF⟩ := Option.map_eq_some'.mp hrun
  rw [stImg_not_img attrs _ hni] at hF
  obtain ⟨hwc, hwf, hws⟩ := stWatched_pres tag attrs s
  obtain ⟨hpc, hpf, hps⟩ := stProgress_pres tag attrs _ s3 hs3
  obtain ⟨hqc, hqf, hqs⟩ := stPoster_pres tag attrs s3
  have h4 : (stPoster tag attrs s3).current.isSome = true := by
    rw [hqs, hps, hws, hit]
    rfl
  obtain ⟨hccf, hcct, _⟩ := capChain_fields tag attrs _ h4 htag hkey
  obtain ⟨hic, hif, _⟩ := stInline_pres attrs
    (stCapEp tag attrs (stCapDuration tag attrs
      (stCapRelease tag attrs (stCapTitle tag attrs (stPoster tag attrs s3)))))
  constructor
  · rw [← hF, hif, hccf]
    cases captureRuleTarget attrs with
    | some f => rfl
    | none => rw [hqf, hpf, hwf]
  · rw [← hF, hic, hcct, hqc, hpc, hwc]

/-- Witness for `capture_rule_order` at a class matching two rules. -/
theorem capture_rule_order_witness :
    epTitleResult.current_text_field =
      (match captureRuleTarget epTitleAttrs with
       | some f => some f
       | none => openState.current_text_field) ∧
    epTitleResult.capture_text =
      ((captureRuleTarget epTitleAttrs).isSome || openState.capture_text) :=
  capture_rule_order openState "div" epTitleAttrs epTitleResult baseItem rfl
    (Or.inl rfl) (by decide) (by decide)

/-- The term `stMeta` on a recognized entity root replaces the current record. -/
theorem stMeta_hit (attrs : List (String × String)) (s : ScanState)
    (mt iid : String) (hkey : hasKey attrs "class" = true)
    (hcls : hasSubstr (dictGet attrs "class" "") "meta-item-container" = true)
    (hdet : findDetail (dictGet attrs "href" "") = some (mt, iid)) :
    stMeta "a" attrs s =
      { s with in_meta_item := true, current := some (initItem attrs mt iid) } := by
  simp [stMeta, hdet, hkey, hcls]

/-- Claim C10. When the scanner sees a new entity-root start tag with a
parsable identifier while an entity is still open, the open record is
silently discarded: the item list is unchanged (the old record is never
appended) and the current record becomes the freshly initialized one;
the next entity-root end tag then appends only the new record.  (The
`style`-free hypothesis keeps the inline-style fallback out of play.) -/
theorem entity_reentry_discards (s : ScanState)
    (attrs : List (String × String)) (old : RawItem) (mt iid : String)
    (_hold : s.current = some old) (hkey : hasKey attrs "class" = true)
    (hcls : hasSubstr (dictGet attrs "class" "") "meta-item-container" = true)
    (hdet : findDetail (dictGet attrs "href" "") = some (mt, iid))
    (hstyle : hasKey attrs "style" = false) :
    handle_starttag s "a" attrs =
      some { s with in_meta_item := true,
                    current := some (initItem attrs mt iid) } ∧
    (handle_endtag
        { s with in_meta_item := true,
                 current := some (initItem attrs mt iid) } "a").items =
      s.items ++ [initItem attrs mt iid] := by
  constructor
  · unfold handle_starttag
    rw [stMeta_hit attrs s mt iid hkey hcls hdet,
        stWatched_not_div attrs _ (by decide),
        stProgress_not_div attrs _ (by decide)]
    rw [Option.map_some']
    rw [stPoster_not_div attrs _ (by decide),
        stImg_not_img attrs _ (by decide),
        stCapTitle_not_text attrs _ (by decide),
        stCapRelease_not_text attrs _ (by decide),
        stCapDuration_not_text attrs _ (by decide),
        stCapEp_not_text attrs _ (by decide),
        stInline_no_style attrs _ hstyle]
  · simp only [handle_endtag]
    rw [if_neg (by decide : ¬ textTag "a")]
    split
    · rfl
    · rename_i h
      refine (h ?_).elim
      constructor <;> trivial

theorem entity_reentry_discards_witness :
    handle_starttag openState "a" reAttrs =
      some { openState with
               in_meta_item := true,
               current := some (initItem reAttrs "movie" "tt2") } ∧
    (handle_endtag
        { openState with
            in_meta_item := true,
            current := some (initItem reAttrs "movie" "tt2") } "a").items =
      openState.items ++ [initItem reAttrs "movie" "tt2"] :=
  entity_reentry_discards openState reAttrs baseItem "movie" "tt2" rfl
    (by decide) (by decide) (by decide) (by decide)

/-- Any result of a successful search is a result of the position matcher
at some suffix. -/
theorem searchList_some {α : Type} {f : List Char → Option α} :
    ∀ (l : List Char) (r : α), searchList f l = some r →
      ∃ l2, f l2 = some r := by
  intro l
  induction l with
  | nil => exact fun r h => ⟨[], h⟩
  | cons c t ih =>
    intro r h
    unfold searchList at h
    split at h
    · exact ⟨c :: t, by rw [‹f (c :: t) = some _›]; exact h⟩
    · exact ih r h

/-- The `background-image` matcher only returns nonempty URL groups. -/
theorem matchBgAt_ne_nil (l : List Char) (u : List Char)
    (h : matchBgAt l = some u) : u ≠ [] := by
  simp only [matchBgAt] at h
  repeat' split at h
  all_goals
    first
    | (rw [Option.some.injEq] at h
       subst h
       simp_all)
    | simp at h

theorem findBgUrl_ne_nil (s : String) (u : List Char)
    (h : findBgUrl s = some u) : u ≠ [] := by
  obtain ⟨l2, h2⟩ := searchList_some s.data u h
  exact matchBgAt_ne_nil l2 u h2

/-- Percent-decoding never maps a nonempty string to the empty string. -/
theorem pyUnquoteL_ne_nil (l : List Char) (h : l ≠ []) :
    pyUnquoteL l ≠ [] := by
  rw [pyUnquoteL.eq_def]
  split
  · exact absurd rfl h
  · split <;> simp
  · simp

/-- Under its guard, the poster block overwrites `poster_url` with the
decoded matched URL, whatever its previous value. -/
theorem stPoster_setsUrl (attrs : List (String × String)) (s : ScanState)
    (it : RawItem) (u : List Char) (hit : s.current = some it)
    (hkey : hasKey attrs "class" = true) (hcond : posterCond attrs)
    (hbg : findBgUrl (dictGet attrs "style" "") = some u) :
    ∃ it2, stPoster "div" attrs s = { s with current := some it2 } ∧
      it2.poster_url = some (pyUnquote (String.mk u)) := by
  simp only [stPoster, hit, hbg]
  rw [if_pos (⟨trivial, hkey⟩ : True ∧ hasKey attrs "class" = true)]
  split
  · repeat' split
    all_goals exact ⟨_, rfl, rfl⟩
  · rename_i hncond
    exact absurd hcond hncond

/-- The img block never overwrites a non-falsy `poster_url`. -/
theorem stImg_preserves_poster (attrs : List (String × String))
    (s : ScanState) (it : RawItem) (hit : s.current = some it)
    (hp : optStrFalsy it.poster_url = false) :
    ∃ it2, stImg "img" attrs s = { s with current := some it2 } ∧
      it2.poster_url = it.poster_url := by
  simp only [stImg, hit]
  rw [if_pos trivial]
  have hsrc : ¬(dictGet attrs "src" "" ≠ "" ∧
      optStrFalsy it.poster_url = true) := by
    simp [hp]
  rw [if_neg hsrc]
  split <;> exact ⟨_, rfl, rfl⟩

/-- The inline-style fallback is a no-op on a non-falsy `poster_url`. -/
theorem stInline_keeps (attrs : List (String × String)) (s : ScanState)
    (it : RawItem) (hit : s.current = some it)
    (hp : optStrFalsy it.poster_url = false) : stInline attrs s = s := by
  simp only [stInline, hit]
  split
  · rw [if_neg (by simp [hp])]
  · rfl

/-- Claim C3, amended. `posterUrl` is the percent-decoded URL of a discovered
background-image or image source, but first-match-wins only holds for the
img-source and inline-style branches: a poster/thumbnail/image-class
`background-image` match overwrites any previously stored URL (the last
such match wins), while the img and inline-style branches never replace a
non-empty stored URL. -/
theorem posterUrl_branch_semantics (s : ScanState)
    (attrs : List (String × String)) (it : RawItem)
    (hit : s.current = some it) :
    (∀ s' u, hasKey attrs "class" = true → posterCond attrs →
      findBgUrl (dictGet attrs "style" "") = some u →
      handle_starttag s "div" attrs = some s' →
      ∃ it2, s'.current = some it2 ∧
        it2.poster_url = some (pyUnquote (String.mk u))) ∧
    (∀ s' p, it.poster_url = some p → p ≠ "" →
      handle_starttag s "img" attrs = some s' →
      ∃ it2, s'.current = some it2 ∧ it2.poster_url = some p) ∧
    (∀ s' p, it.poster_url = some p → p ≠ "" →
      handle_starttag s "span" attrs = some s' →
      ∃ it2, s'.current = some it2 ∧ it2.poster_url = some p) := by
  refine ⟨?_, ?_, ?_⟩
  · intro s' u hkey hcond hbg hrun
    unfold handle_starttag at hrun
    rw [stMeta_not_a attrs s (by decide)] at hrun
    obtain ⟨s3, hs3, hF⟩ := Option.map_eq_some'.mp hrun
    have his : s3.current.isSome = true := by
      rw [(stProgress_pres _ _ _ _ hs3).2.2, (stWatched_pres _ _ _).2.2, hit]
      rfl
    obtain ⟨it3, hit3⟩ := Option.isSome_iff_exists.mp his
    obtain ⟨it2, hP, hPu⟩ := stPoster_setsUrl attrs s3 it3 u hit3 hkey hcond hbg
    rw [stImg_not_img attrs _ (by decide), hP] at hF
    have hcc : (stCapEp "div" attrs (stCapDuration "div" attrs
        (stCapRelease "div" attrs
          (stCapTitle "div" attrs { s3 with current := some it2 })))).current =
        some it2 := by
      rw [stCapEp_current, stCapDuration_current, stCapRelease_current,
          stCapTitle_current]
    have hne : optStrFalsy it2.poster_url = false := by
      rw [hPu]
      simp only [optStrFalsy, decide_eq_false_iff_not]
      simp only [pyUnquote, ne_eq, String.ext_iff]
      simpa using pyUnquoteL_ne_nil u (findBgUrl_ne_nil _ u hbg)
    rw [stInline_keeps attrs _ it2 hcc hne] at hF
    exact ⟨it2, by rw [← hF, hcc], hPu⟩
  · intro s' p hp hpne hrun
    unfold handle_starttag at hrun
    rw [stMeta_not_a attrs s (by decide),
        stWatched_not_div attrs s (by decide),
        stProgress_not_div attrs s (by decide)] at hrun
    rw [Option.map_some'] at hrun
    rw [stPoster_not_div attrs s (by decide)] at hrun
    have hpf : optStrFalsy it.poster_url = false := by
      rw [hp]
      simpa [optStrFalsy] using hpne
    obtain ⟨it2, hI, hIp⟩ := stImg_preserves_poster attrs s it hit hpf
    rw [hI] at hrun
    have hcc : (stCapEp "img" attrs (stCapDuration "img" attrs
        (stCapRelease "img" attrs
          (stCapTitle "img" attrs { s with current := some it2 })))).current =
        some it2 := by
      rw [stCapEp_current, stCapDuration_current, stCapRelease_current,
          stCapTitle_current]
    have hne2 : optStrFalsy it2.poster_url = false := by rw [hIp]; exact hpf
    rw [stInline_keeps attrs _ it2 hcc hne2] at hrun
    rw [Option.some.injEq] at hrun
    refine ⟨it2, ?_, by rw [hIp, hp]⟩
    rw [← hrun, hcc]
  · intro s' p hp hpne hrun
    unfold handle_starttag at hrun
    rw [stMeta_not_a attrs s (by decide),
        stWatched_not_div attrs s (by decide),
        stProgress_not_div attrs s (by decide)] at hrun
    rw [Option.map_some'] at hrun
    rw [stPoster_not_div attrs s (by decide),
        stImg_not_img attrs s (by decide)] at hrun
    have hcc : (stCapEp "span" attrs (stCapDuration "span" attrs
        (stCapRelease "span" attrs (stCapTitle "span" attrs s)))).current =
        some it := by
      rw [stCapEp_current, stCapDuration_current, stCapRelease_current,
          stCapTitle_current, hit]
    have hpf : optStrFalsy it.poster_url = false := by
      rw [hp]
      simpa [optStrFalsy] using hpne
    rw [stInline_keeps attrs _ it hcc hpf] at hrun
    rw [Option.some.injEq] at hrun
    exact ⟨it, by rw [← hrun, hcc], hp⟩

theorem ScanInv_update {Q : RawItem → Prop}
    (hCore : ∀ it it2, coreOf it2 = coreOf it → Q it → Q it2)
    {s : ScanState} {it it2 : RawItem} (hit : s.current = some it)
    (hcore : coreOf it2 = coreOf it) (hInv : ScanInv Q s) :
    ScanInv Q { s with current := some it2 } := by
  refine ⟨hInv.1, fun it3 h3 => ?_⟩
  rw [Option.some.injEq] at h3
  subst h3
  exact hCore it _ hcore (hInv.2 it hit)

/-- Invariant preservation for one scanner step. -/
theorem scanStep_core_inv (Q : RawItem → Prop)
    (hCore : ∀ it it2, coreOf it2 = coreOf it → Q it → Q it2)
    (hInit : ∀ a mt iid, Q (initItem a mt iid))
    (e : HEvent)
    (hProg : ∀ t a, e = .startTag t a → ∀ it num q, progressCond t a →
      findWidth (dictGet a "style" "") = some num → pyFloatDD num = some q →
      Q it → Q { it with progress := q })
    (s s2 : ScanState) (hInv : ScanInv Q s) (h : scanStep s e = some s2) :
    ScanInv Q s2 := by
  cases e with
  | startTag t a =>
    simp only [scanStep] at h
    unfold handle_starttag at h
    obtain ⟨s3, hs3, hF⟩ := Option.map_eq_some'.mp h
    have hM : ScanInv Q (stMeta t a s) := by
      rcases stMeta_char t a s with hq | hq | ⟨mt, iid, _, hq⟩ <;> rw [hq]
      · exact hInv
      · exact ⟨hInv.1, hInv.2⟩
      · exact ⟨hInv.1, fun it3 h3 => by
          rw [Option.some.injEq] at h3
          subst h3
          exact hInit a mt iid⟩
    have hW : ScanInv Q (stWatched t a (stMeta t a s)) := by
      rcases stWatched_char t a (stMeta t a s) with hq | ⟨it, hit, hq⟩ <;>
        rw [hq]
      · exact hM
      · exact ScanInv_update hCore hit rfl hM
    have h3 : ScanInv Q s3 := by
      rcases stProgress_char t a _ s3 hs3 with hq | ⟨hcond, it, num, q, hit, hnum, hq2, hq⟩
      · rw [hq]
        exact hW
      · rw [hq]
        refine ⟨hW.1, fun it3 h3 => ?_⟩
        rw [Option.some.injEq] at h3
        subst h3
        exact hProg t a rfl it num q hcond hnum hq2 (hW.2 it hit)
    have hP : ScanInv Q (stPoster t a s3) := by
      rcases stPoster_char t a s3 with hq | ⟨it, pu, ps, hit, hq⟩ <;> rw [hq]
      · exact h3
      · exact ScanInv_update hCore hit rfl h3
    have hI : ScanInv Q (stImg t a (stPoster t a s3)) := by
      rcases stImg_char t a (stPoster t a s3) with hq | ⟨it, pu, ttl, hit, hq⟩ <;>
        rw [hq]
      · exact hP
      · exact ScanInv_update hCore hit rfl hP
    have hC1 : ScanInv Q (stCapTitle t a (stImg t a (stPoster t a s3))) := by
      rcases stCapTitle_char t a (stImg t a (stPoster t a s3)) with hq | hq <;>
        rw [hq]
      · exact hI
      · exact ⟨hI.1, hI.2⟩
    have hC2 : ScanInv Q (stCapRelease t a (stCapTitle t a
        (stImg t a (stPoster t a s3)))) := by
      rcases stCapRelease_char t a _ with hq | hq <;> rw [hq]
      · exact hC1
      · exact ⟨hC1.1, hC1.2⟩
    have hC3 : ScanInv Q (stCapDuration t a (stCapRelease t a (stCapTitle t a
        (stImg t a (stPoster t a s3))))) := by
      rcases stCapDuration_char t a _ with hq | hq <;> rw [hq]
      · exact hC2
      · exact ⟨hC2.1, hC2.2⟩
    have hC4 : ScanInv Q (stCapEp t a (stCapDuration t a (stCapRelease t a
        (stCapTitle t a (stImg t a (stPoster t a s3)))))) := by
      rcases stCapEp_char t a _ with hq | hq <;> rw [hq]
      · exact hC3
      · exact ⟨hC3.1, hC3.2⟩
    rw [← hF]
    rcases stInline_char a (stCapEp t a (stCapDuration t a (stCapRelease t a
        (stCapTitle t a (stImg t a (stPoster t a s3)))))) with hq | ⟨it, u, hit, hq⟩ <;>
      rw [hq]
    · exact hC4
    · exact ScanInv_update hCore hit rfl hC4
  | dataEv d =>
    simp only [scanStep, Option.some.injEq] at h
    subst h
    rcases handle_data_char s d with hq | ⟨it, ttl, yr, dur, ept, rel, hit, hq⟩ <;>
      rw [hq]
    · exact hInv
    · exact ScanInv_update hCore hit rfl hInv
  | endTag t =>
    simp only [scanStep, Option.some.injEq] at h
    subst h
    obtain ⟨hitems, hcur⟩ := handle_endtag_char s t
    constructor
    · rcases hitems with hq | ⟨it, hit, hq⟩ <;> rw [hq]
      · exact hInv.1
      · intro it3 h3
        rw [List.mem_append] at h3
        rcases h3 with h3 | h3
        · exact hInv.1 it3 h3
        · rw [List.mem_singleton] at h3
          subst h3
          exact hInv.2 it3 hit
    · rcases hcur with hq | hq <;> rw [hq]
      · exact hInv.2
      · intro it3 h3
        exact absurd h3 (by simp)

/-- Invariant preservation over a whole scan. -/
theorem runScan_core_inv (Q : RawItem → Prop)
    (hCore : ∀ it it2, coreOf it2 = coreOf it → Q it → Q it2)
    (hInit : ∀ a mt iid, Q (initItem a mt iid)) :
    ∀ (evs : List HEvent),
      (∀ t a, HEvent.startTag t a ∈ evs → ∀ it num q, progressCond t a →
        findWidth (dictGet a "style" "") = some num →
        pyFloatDD num = some q → Q it → Q { it with progress := q }) →
      ∀ s s2, ScanInv Q s → runScan s evs = some s2 → ScanInv Q s2 := by
  intro evs
  induction evs with
  | nil =>
    intro _ s s2 hInv h
    rw [runScan, Option.some.injEq] at h
    subst h
    exact hInv
  | cons e es ih =>
    intro hProg s s2 hInv h
    rw [runScan] at h
    split at h
    · rename_i s3 hstep
      have h3 : ScanInv Q s3 :=
        scanStep_core_inv Q hCore hInit e
          (fun t a he => by
            subst he
            exact hProg t a (List.mem_cons_self _ _)) s s3 hInv hstep
      exact ih (fun t a hm => hProg t a (List.mem_cons_of_mem _ hm)) s3 s2 h3 h
    · exact absurd h (by simp)

theorem ScanInvPair_update {R Q : RawItem → Prop}
    (hCore : ∀ it it2, coreOf it2 = coreOf it → Q it → Q it2)
    {s : ScanState} {it it2 : RawItem} (hit : s.current = some it)
    (hcore : coreOf it2 = coreOf it) (hInv : ScanInvPair R Q s) :
    ScanInvPair R Q { s with current := some it2 } := by
  refine ⟨hInv.1, fun it3 h3 => ?_⟩
  rw [Option.some.injEq] at h3
  subst h3
  exact hCore it _ hcore (hInv.2 it hit)

/-- Pair-invariant preservation for one scanner step. -/
theorem scanStep_pair_inv (R Q : RawItem → Prop)
    (hCore : ∀ it it2, coreOf it2 = coreOf it → Q it → Q it2)
    (hInit : ∀ a mt iid, Q (initItem a mt iid))
    (hQR : ∀ it, Q it → R it)
    (e : HEvent)
    (hProg : ∀ t a, e = .startTag t a → ∀ it num q, progressCond t a →
      findWidth (dictGet a "style" "") = some num → pyFloatDD num = some q →
      Q it → Q { it with progress := q })
    (s s2 : ScanState) (hInv : ScanInvPair R Q s) (h : scanStep s e = some s2) :
    ScanInvPair R Q s2 := by
  cases e with
  | startTag t a =>
    simp only [scanStep] at h
    unfold handle_starttag at h
    obtain ⟨s3, hs3, hF⟩ := Option.map_eq_some'.mp h
    have hM : ScanInvPair R Q (stMeta t a s) := by
      rcases stMeta_char t a s with hq | hq | ⟨mt, iid, _, hq⟩ <;> rw [hq]
      · exact hInv
      · exact ⟨hInv.1, hInv.2⟩
      · exact ⟨hInv.1, fun it3 h3 => by
          rw [Option.some.injEq] at h3
          subst h3
          exact hInit a mt iid⟩
    have hW : ScanInvPair R Q (stWatched t a (stMeta t a s)) := by
      rcases stWatched_char t a (stMeta t a s) with hq | ⟨it, hit, hq⟩ <;>
        rw [hq]
      · exact hM
      · exact ScanInvPair_update hCore hit rfl hM
    have h3 : ScanInvPair R Q s3 := by
      rcases stProgress_char t a _ s3 hs3 with hq | ⟨hcond, it, num, q, hit, hnum, hq2, hq⟩
      · rw [hq]
        exact hW
      · rw [hq]
        refine ⟨hW.1, fun it3 h3 => ?_⟩
        rw [Option.some.injEq] at h3
        subst h3
        exact hProg t a rfl it num q hcond hnum hq2 (hW.2 it hit)
    have hP : ScanInvPair R Q (stPoster t a s3) := by
      rcases stPoster_char t a s3 with hq | ⟨it, pu, ps, hit, hq⟩ <;> rw [hq]
      · exact h3
      · exact ScanInvPair_update hCore hit rfl h3
    have hI : ScanInvPair R Q (stImg t a (stPoster t a s3)) := by
      rcases stImg_char t a (stPoster t a s3) with hq | ⟨it, pu, ttl, hit, hq⟩ <;>
        rw [hq]
      · exact hP
      · exact ScanInvPair_update hCore hit rfl hP
    have hC1 : ScanInvPair R Q (stCapTitle t a (stImg t a (stPoster t a s3))) := by
      rcases stCapTitle_char t a (stImg t a (stPoster t a s3)) with hq | hq <;>
        rw [hq]
      · exact hI
      · exact ⟨hI.1, hI.2⟩
    have hC2 : ScanInvPair R Q (stCapRelease t a (stCapTitle t a
        (stImg t a (stPoster t a s3)))) := by
      rcases stCapRelease_char t a _ with hq | hq <;> rw [hq]
      · exact hC1
      · exact ⟨hC1.1, hC1.2⟩
    have hC3 : ScanInvPair R Q (stCapDuration t a (stCapRelease t a
        (stCapTitle t a (stImg t a (stPoster t a s3))))) := by
      rcases stCapDuration_char t a _ with hq | hq <;> rw [hq]
      · exact hC2
      · exact ⟨hC2.1, hC2.2⟩
    have hC4 : ScanInvPair R Q (stCapEp t a (stCapDuration t a (stCapRelease t a
        (stCapTitle t a (stImg t a (stPoster t a s3)))))) := by
      rcases stCapEp_char t a _ with hq | hq <;> rw [hq]
      · exact hC3
      · exact ⟨hC3.1, hC3.2⟩
    rw [← hF]
    rcases stInline_char a (stCapEp t a (stCapDuration t a (stCapRelease t a
        (stCapTitle t a (stImg t a (stPoster t a s3)))))) with hq | ⟨it, u, hit, hq⟩ <;>
      rw [hq]
    · exact hC4
    · exact ScanInvPair_update hCore hit rfl hC4
  | dataEv d =>
    simp only [scanStep, Option.some.injEq] at h
    subst h
    rcases handle_data_char s d with hq | ⟨it, ttl, yr, dur, ept, rel, hit, hq⟩ <;>
      rw [hq]
    · exact hInv
    · exact ScanInvPair_update hCore hit rfl hInv
  | endTag t =>
    simp only [scanStep, Option.some.injEq] at h
    subst h
    obtain ⟨hitems, hcur⟩ := handle_endtag_char s t
    constructor
    · rcases hitems with hq | ⟨it, hit, hq⟩ <;> rw [hq]
      · exact hInv.1
      · intro it3 h3
        rw [List.mem_append] at h3
        rcases h3 with h3 | h3
        · exact hInv.1 it3 h3
        · rw [List.mem_singleton] at h3
          subst h3
          exact hQR it3 (hInv.2 it3 hit)
    · rcases hcur with hq | hq <;> rw [hq]
      · exact hInv.2
      · intro it3 h3
        exact absurd h3 (by simp)

/-- Pair-invariant preservation over a stretch of the token stream. -/
theorem runScan_pair_inv (R Q : RawItem → Prop)
    (hCore : ∀ it it2, coreOf it2 = coreOf it → Q it → Q it2)
    (hInit : ∀ a mt iid, Q (initItem a mt iid))
    (hQR : ∀ it, Q it → R it) :
    ∀ (evs : List HEvent),
      (∀ t a, HEvent.startTag t a ∈ evs → ∀ it num q, progressCond t a →
        findWidth (dictGet a "style" "") = some num →
        pyFloatDD num = some q → Q it → Q { it with progress := q }) →
      ∀ s s2, ScanInvPair R Q s → runScan s evs = some s2 →
        ScanInvPair R Q s2 := by
  intro evs
  induction evs with
  | nil =>
    intro _ s s2 hInv h
    rw [runScan, Option.some.injEq] at h
    subst h
    exact hInv
  | cons e es ih =>
    intro hProg s s2 hInv h
    rw [runScan] at h
    split at h
    · rename_i s3 hstep
      have h3 : ScanInvPair R Q s3 :=
        scanStep_pair_inv R Q hCore hInit hQR e
          (fun t a he => by
            subst he
            exact hProg t a (List.mem_cons_self _ _)) s s3 hInv hstep
      exact ih (fun t a hm => hProg t a (List.mem_cons_of_mem _ hm)) s3 s2 h3 h
    · exact absurd h (by simp)

theorem initItem_progress (a : List (String × String)) (mt iid : String) :
    (initItem a mt iid).progress = 0 := by
  simp only [initItem]
  split <;> rfl

theorem initItem_season_episode (a : List (String × String))
    (mt iid : String) :
    (initItem a mt iid).season.isSome = (initItem a mt iid).episode.isSome := by
  simp only [initItem]
  split <;> rfl

/-- A parsed width is always nonnegative (digits and dots only). -/
theorem pyFloatDD_nonneg (num : List Char) (q : Rat)
    (h : pyFloatDD num = some q) : 0 ≤ q := by
  unfold pyFloatDD at h
  split at h
  · rw [Option.some.injEq] at h
    subst h
    exact Rat.mkRat_nonneg (Int.natCast_nonneg _) _
  · exact absurd h (by simp)

/-- Initial scanner state satisfies every invariant. -/
theorem ScanInv_init (Q : RawItem → Prop) : ScanInv Q initState :=
  ⟨fun it h => absurd h (by simp [initState]), fun it h => by
    simp [initState] at h⟩

/-- Claim C4, amended. `progressPercent` is a nonnegative float (the width
regex admits no sign), but the claimed upper bound 100 does not hold: the
parsed width percentage is stored unclamped (see the counterexample).  The
per-span default of the claim is retained: every produced record has
nonnegative progress (first conjunct); a record is created with the
default `progress = 0` (second conjunct); and over any stretch of the
token stream whose start tags never satisfy the progress-bar guard, an
open record at the default keeps it, and every record appended during the
stretch either was already produced before it or has the default 0 (third
conjunct).  Instantiating the stretch at an entity's span — from just
after its root start tag, where the fresh record has progress 0 by the
second conjunct, through its finalizing end tag — gives exactly the
claim's default clause: when no progress-bar markup is found within the
entity's span, the produced entity has `progressPercent = 0`. -/
theorem progress_nonneg_and_default :
    (∀ evs items, runScanner evs = some items →
      ∀ it ∈ items, 0 ≤ it.progress) ∧
    (∀ attrs mt iid, (initItem attrs mt iid).progress = 0) ∧
    (∀ (mid : List HEvent) (s1 s2 : ScanState),
      (∀ t a, HEvent.startTag t a ∈ mid → ¬ progressCond t a) →
      runScan s1 mid = some s2 →
      (∀ it, s1.current = some it → it.progress = 0) →
      (∀ it ∈ s2.items, it ∈ s1.items ∨ it.progress = 0) ∧
      (∀ it, s2.current = some it → it.progress = 0)) := by
  refine ⟨?_, ?_, ?_⟩
  · intro evs items h
    obtain ⟨sf, hsf, hitems⟩ := Option.map_eq_some'.mp h
    have := runScan_core_inv (fun it => 0 ≤ it.progress)
      (fun it it2 hc hq => by
        have h2 : it2.progress = it.progress := congrArg Prod.fst hc
        show 0 ≤ it2.progress
        rw [h2]
        exact hq)
      (fun a mt iid => by
        show 0 ≤ (initItem a mt iid).progress
        rw [initItem_progress])
      evs
      (fun t a _ it num q _ _ hq hqit => pyFloatDD_nonneg num q hq)
      initState sf (ScanInv_init _) hsf
    rw [← hitems]
    exact this.1
  · exact fun attrs mt iid => initItem_progress attrs mt iid
  · intro mid s1 s2 hmid hrun hzero
    exact runScan_pair_inv (fun it => it ∈ s1.items ∨ it.progress = 0)
      (fun it => it.progress = 0)
      (fun it it2 hc hq => by
        have h2 : it2.progress = it.progress := congrArg Prod.fst hc
        show it2.progress = 0
        rw [h2]
        exact hq)
      (fun a mt iid => initItem_progress a mt iid)
      (fun it hq => Or.inr hq)
      mid
      (fun t a hm it num q hcond _ _ _ => absurd hcond (hmid t a hm))
      s1 s2 ⟨fun it hmem => Or.inl hmem, hzero⟩ hrun

/-- Witness for `progress_nonneg_and_default`: the `docBare` entity's span
(`spanMid`) carries a watched marker but no progress-bar markup, and the
record the span produces keeps the default progress 0. -/
theorem progress_nonneg_and_default_witness :
    spanItem ∈ spanState.items ∨ spanItem.progress = 0 :=
  (progress_nonneg_and_default.2.2 spanMid spanState spanEnd
    (by
      intro t a hm
      simp only [spanMid, List.mem_cons, List.not_mem_nil, or_false] at hm
      rcases hm with hm | hm
      · injection hm with ht ha
        subst ht
        subst ha
        decide
      · exact HEvent.noConfusion hm)
    (by decide)
    (by
      intro it h
      simp only [spanState, Option.some.injEq] at h
      subst h
      decide)).1 spanItem (by decide)

/-- Claim C6, amended. For every successful run, every produced record has
`season` and `episode` both present or both absent (they are populated
together from the `id:season:episode` link-target match).  When present
they are natural numbers, but not necessarily strictly positive: `0` is
accepted (see the counterexample). -/
theorem season_episode_together (evs : List HEvent) (items : List RawItem)
    (h : runScanner evs = some items) :
    ∀ it ∈ items, it.season.isSome = it.episode.isSome := by
  obtain ⟨sf, hsf, hitems⟩ := Option.map_eq_some'.mp h
  have := runScan_core_inv (fun it => it.season.isSome = it.episode.isSome)
    (fun it it2 hc hq => by
      have hs : it2.season = it.season := congrArg (Prod.fst ∘ Prod.snd) hc
      have he : it2.episode = it.episode := congrArg (Prod.snd ∘ Prod.snd) hc
      show it2.season.isSome = it2.episode.isSome
      rw [hs, he]
      exact hq)
    (fun a mt iid => initItem_season_episode a mt iid)
    evs
    (fun t a _ it num q _ _ _ hq => hq)
    initState sf (ScanInv_init _) hsf
  rw [← hitems]
  exact this.1

/-- Witness for `season_episode_together` on the zero-season document. -/
theorem season_episode_together_witness :
    (initItem [("class", "meta-item-container"),
      ("href", "#/detail/series/tt123:0:0")] "series" "tt123").season.isSome =
    (initItem [("class", "meta-item-container"),
      ("href", "#/detail/series/tt123:0:0")] "series" "tt123").episode.isSome :=
  season_episode_together docZeroSE
    [initItem [("class", "meta-item-container"),
      ("href", "#/detail/series/tt123:0:0")] "series" "tt123"] (by decide)
    (initItem [("class", "meta-item-container"),
      ("href", "#/detail/series/tt123:0:0")] "series" "tt123") (by decide)

/-! ## Finalized records carry no null fields (C7, amended) -/

/-- Claim C7, amended. A finalized record never contains a `None`-valued
field: the dict comprehension strips every key whose value is `None`, so
optional fields with no discovered value are absent rather than null.
(However, an undiscovered title is the empty string, not `None`, and so
survives finalization — see the counterexample.) -/
theorem finalize_no_none_fields (it : RawItem) :
    ∀ kv ∈ finalize it, kv.2 ≠ Value.vNone := by
  intro kv hkv
  have := (List.mem_filter.mp hkv).2
  simpa using this

/-- Witness for `finalize_no_none_fields` at a concrete record and key. -/
theorem finalize_no_none_fields_witness :
    ("imdb_id", Value.vStr "tt7").2 ≠ Value.vNone :=
  finalize_no_none_fields baseItem ("imdb_id", Value.vStr "tt7") (by decide)

theorem posterUrl_branch_semantics_witness :
    ∃ it2, pResult.current = some it2 ∧
      it2.poster_url = some (pyUnquote (String.mk ['B'])) :=
  (posterUrl_branch_semantics poState pAttrs posterItemA rfl).1 pResult ['B']
    (by decide) (by decide) (by decide) (by decide)

end StremioTrakt
